import Mathlib

/-!
Verification of the tstat ticket ingestion and query engine.

This file gives a shallow embedding, in Lean 4, of the core of the
`uoclass/tstat` repository (files `organization.py`, `report.py`,
`ticketclasses.py`) and proves or refutes a fixed list of claims about it.

Modelling conventions:
* Python `datetime` values are modelled by `DT`: an integer day number
  (days since the epoch; day 0 is a Thursday, as 1970-01-01 is) together
  with a natural number of seconds into the day.  Comparison is
  lexicographic, exactly as `datetime` comparison orders first by date and
  then by time of day.
* Python object identity (reference equality of `Building`, `Room`, `User`,
  `Group`, `Department` objects) is modelled by a unique identifier `uid`
  allocated from a counter in the `Org` state.
* Python dictionaries are modelled as association lists in insertion order;
  assignment to an existing key replaces the value in place, assignment to
  a fresh key appends, matching the iteration-order semantics of `dict`.
* Python `None` becomes `Option.none`, and operations that would raise a
  `TypeError` or `KeyError` (comparing `None` with a `datetime`, indexing a
  missing key) return `Except.error ()`.
* Python truthiness is modelled explicitly: a string is truthy iff
  non-empty, a list iff non-empty, an integer iff non-zero, and `datetime`
  and entity objects are always truthy.
-/

set_option maxRecDepth 4096

namespace Tstat

/-! ## Datetimes -/

/-- A Python `datetime`: day number since the epoch plus seconds into the
day.  Day 0 (1970-01-01) is a Thursday, so Python `datetime.weekday` of day
`d` is `(d + 3) % 7`. -/
structure DT where
  day : Int
  sec : Nat
deriving DecidableEq, Repr

/-- `datetime` comparison `a < b` (lexicographic on date then time). -/
def dtLt (a b : DT) : Bool :=
  a.day < b.day || (a.day == b.day && a.sec < b.sec)

/-- `datetime` comparison `a <= b`. -/
def dtLe (a b : DT) : Bool :=
  a.day < b.day || (a.day == b.day && a.sec ≤ b.sec)

/-- `t + timedelta(days = n)`. -/
def addDays (n : Int) (t : DT) : DT :=
  ⟨t.day + n, t.sec⟩

/-- Python `datetime.weekday` as a function of the day number
(Monday = 0, and day 0 of the epoch is a Thursday = 3). -/
def weekday (d : Int) : Int :=
  (d + 3) % 7

/-- The `while datetime.weekday(date): date -= timedelta(days=1)` loop of
`get_monday` (organization.py).  The loop runs at most 6 times because a
weekday is in `[0, 6]`; fuel 7 therefore always suffices
(`mondayLoop_eq` below proves the fuel is never exhausted). -/
def mondayLoop : Nat → Int → Int
  | 0, d => d
  | fuel + 1, d => if weekday d = 0 then d else mondayLoop fuel (d - 1)

/-- `get_monday` (organization.py): combine with midnight, then walk back
day by day to Monday. -/
def get_monday (t : DT) : DT :=
  ⟨mondayLoop 7 t.day, 0⟩

/-! ## Tickets and the criteria bundle -/

/-- The part of a `Ticket`'s `room` reference that filtering consults:
the identity of the room and of its building. -/
structure TicketRoom where
  building : Nat
  uid : Nat
deriving DecidableEq, Repr

/-- A `Ticket` (ticketclasses.py).  Entity references (`room`, `requestor`,
`responsible_group`, `department`) are by identity, i.e. by `uid`. -/
structure Ticket where
  id : Nat
  title : Option String
  room : TicketRoom
  requestor : Nat
  responsible_group : Nat
  department : Nat
  created : Option DT
  modified : Option DT
  diagnoses : List String
  status : Option String
deriving DecidableEq, Repr

/-- The criteria bundle (the `args` dict): each recognized key is either
absent (`none`, Python `None` / missing key) or present. -/
structure Args where
  termstart : Option DT
  termend : Option DT
  building : Option Nat
  requestors : Option (List Nat)
  diagnoses : Option (List String)
  anddiagnoses : Option (List String)
  weeks : Option Nat
deriving DecidableEq, Repr

/-- The all-`None` criteria bundle. -/
def Args.empty : Args :=
  ⟨none, none, none, none, none, none, none⟩

/-- Python truthiness of an optional list (`None` and `[]` are falsy). -/
def listTruthy {α : Type} (o : Option (List α)) : Bool :=
  match o with
  | some l => !l.isEmpty
  | none => false

/-- Python truthiness of an optional string (`None` and `""` are falsy). -/
def strTruthy (o : Option String) : Bool :=
  match o with
  | some s => s ≠ ""
  | none => false

/-- Python truthiness of an optional int (`None` and `0` are falsy). -/
def natTruthy (o : Option Nat) : Bool :=
  match o with
  | some n => n ≠ 0
  | none => false

/-- Diagnosis canonicalization used throughout the source:
`"".join(char.lower() for char in s if char.isalpha())`. -/
def canon (s : String) : String :=
  String.mk ((s.data.filter Char.isAlpha).map Char.toLower)

/-! ## filter_tickets (organization.py) -/

/-- The inner `diagnoses_match` of `filter_tickets`.  It canonicalizes the
user-given list **in place** (the Python code rebinds `given_diagnoses[i]`,
which mutates the list stored in `args`), so the possibly-updated bundle is
returned alongside the boolean verdict.  The ticket's own list is copied
before canonicalization and is not modified. -/
def diagnoses_match (args : Args) (t : Ticket) : Bool × Args :=
  if listTruthy args.diagnoses then
    -- OR filtering via args["diagnoses"]
    let gs := (args.diagnoses.getD []).map canon
    let args1 := { args with diagnoses := some gs }
    let ts := t.diagnoses.map canon
    -- `not given_diagnoses_set.intersection(ticket_diagnoses_set)`
    if !(gs.any fun x => ts.contains x) then (false, args1) else (true, args1)
  else if listTruthy args.anddiagnoses then
    -- AND filtering via args["anddiagnoses"]
    let gs := (args.anddiagnoses.getD []).map canon
    let args1 := { args with anddiagnoses := some gs }
    let ts := t.diagnoses.map canon
    -- `given_diagnoses_set.intersection(ticket_diagnoses_set) != given_diagnoses_set`
    if !(gs.all fun x => ts.contains x) then (false, args1)
    -- `elif not given_diagnoses_set.intersection(ticket_diagnoses_set)`
    else if !(gs.any fun x => ts.contains x) then (false, args1)
    else (true, args1)
  else
    -- not using diagnoses filtering, so match guaranteed
    (true, args)

/-- `ticket.created < term_start`: comparing `None` with a `datetime`
raises a `TypeError` in Python, modelled as `Except.error`. -/
def createdLt (c : Option DT) (b : DT) : Except Unit Bool :=
  match c with
  | some d => .ok (dtLt d b)
  | none => .error ()

/-- `ticket.created > term_end` (same failure mode on `None`). -/
def createdGt (c : Option DT) (b : DT) : Except Unit Bool :=
  match c with
  | some d => .ok (dtLt b d)
  | none => .error ()

/-- The per-ticket loop body of `filter_tickets`: the four precomputed
criteria are fixed, the bundle is threaded (it can be mutated by
`diagnoses_match`), and matching tickets are appended to the accumulator. -/
def filterLoop (term_start term_end : Option DT) (building : Option Nat)
    (requestors : Option (List Nat)) :
    List Ticket → Args → List Ticket → Except Unit (List Ticket × Args)
  | [], args, acc => .ok (acc, args)
  | t :: rest, args, acc =>
    if (match building with
        | some b => t.room.building != b
        | none => false) then
      filterLoop term_start term_end building requestors rest args acc
    else if (match requestors with
        | some rs => !rs.isEmpty && !rs.contains t.requestor
        | none => false) then
      filterLoop term_start term_end building requestors rest args acc
    else
      match (match term_start with
             | some ts => createdLt t.created ts
             | none => .ok false) with
      | .error e => .error e
      | .ok skipStart =>
        if skipStart then
          filterLoop term_start term_end building requestors rest args acc
        else
          match (match term_end with
                 | some te => createdGt t.created te
                 | none => .ok false) with
          | .error e => .error e
          | .ok skipEnd =>
            if skipEnd then
              filterLoop term_start term_end building requestors rest args acc
            else
              let r := diagnoses_match args t
              if r.1 then
                filterLoop term_start term_end building requestors rest r.2 (acc ++ [t])
              else
                filterLoop term_start term_end building requestors rest r.2 acc

/-- `filter_tickets` (organization.py).  Besides the filtered list it
returns the criteria bundle as it stands after the call, because
`diagnoses_match` canonicalizes the given diagnosis lists in place. -/
def filter_tickets (tickets : List Ticket) (args : Args) (exclude : List String) :
    Except Unit (List Ticket × Args) :=
  let term_start := if exclude.contains "termstart" then none else args.termstart
  let term_end0 := if exclude.contains "termend" then none else args.termend
  let building := if exclude.contains "building" then none else args.building
  let requestors := if exclude.contains "requestors" then none else args.requestors
  -- make term_end inclusive of last day
  let term_end := term_end0.map (addDays 1)
  filterLoop term_start term_end building requestors tickets args []

/-! ## The Organization state (organization.py, ticketclasses.py)

Entities are Python heap objects; identity is modelled by a `uid`
allocated from the `nextUid` counter of the `Org` state.  Registries are
association lists in insertion order (Python `dict` semantics). -/

/-- Generic `dict.get`: first entry with the given key. -/
def alookup {κ α : Type} [DecidableEq κ] : List (κ × α) → κ → Option α
  | [], _ => none
  | (k, v) :: rest, key => if k = key then some v else alookup rest key

/-- Generic `dict.__setitem__`: replace the value at an existing key in
place, otherwise append a new entry (Python insertion-order semantics). -/
def aset {κ α : Type} [DecidableEq κ] (l : List (κ × α)) (k : κ) (v : α) : List (κ × α) :=
  match alookup l k with
  | some _ => l.map fun p => if p.1 = k then (k, v) else p
  | none => l ++ [(k, v)]

/-- A `Room` (ticketclasses.py): back-reference to its building (by
identity), identifier, and its list of tickets in append order. -/
structure Room where
  uid : Nat
  buildingUid : Nat
  identifier : String
  tickets : List Ticket
deriving DecidableEq, Repr

/-- A `Building` (ticketclasses.py): name and its `rooms` dict. -/
structure Building where
  uid : Nat
  name : String
  rooms : List (String × Room)
deriving DecidableEq, Repr

/-- A `User` (ticketclasses.py). -/
structure User where
  uid : Nat
  email : String
  name : String
  phone : String
  tickets : List Ticket
deriving DecidableEq, Repr

/-- A `Group` (ticketclasses.py). -/
structure Group where
  uid : Nat
  name : String
  tickets : List Ticket
deriving DecidableEq, Repr

/-- A `Department` (ticketclasses.py). -/
structure Department where
  uid : Nat
  name : String
  tickets : List Ticket
deriving DecidableEq, Repr

/-- The `Organization` state (organization.py). -/
structure Org where
  nextUid : Nat
  buildings : List (String × Building)
  users : List (String × List User)
  departments : List (String × Department)
  groups : List (String × Group)
  tickets : List (Nat × Ticket)
deriving DecidableEq, Repr

/-- The empty `Organization` (its `__init__`). -/
def Org.init : Org :=
  ⟨0, [], [], [], [], []⟩

/-- `name = name if name else "Undefined"`: the normalization applied by
every `find_*` method to an absent or empty identity component. -/
def orUndefined (o : Option String) : String :=
  if strTruthy o then o.getD "" else "Undefined"

/-- `Organization.find_group`. -/
def find_group (org : Org) (name : Option String) (create_mode : Bool) :
    Option Group × Org :=
  let n := orUndefined name
  match alookup org.groups n with
  | some g => (some g, org)
  | none =>
    if create_mode then
      let g : Group := ⟨org.nextUid, n, []⟩
      (some g, { org with groups := org.groups ++ [(n, g)], nextUid := org.nextUid + 1 })
    else (none, org)

/-- `Organization.find_department`. -/
def find_department (org : Org) (name : Option String) (create_mode : Bool) :
    Option Department × Org :=
  let n := orUndefined name
  match alookup org.departments n with
  | some d => (some d, org)
  | none =>
    if create_mode then
      let d : Department := ⟨org.nextUid, n, []⟩
      (some d, { org with departments := org.departments ++ [(n, d)], nextUid := org.nextUid + 1 })
    else (none, org)

/-- `Organization.find_building`. -/
def find_building (org : Org) (name : Option String) (create_mode : Bool) :
    Option Building × Org :=
  let n := orUndefined name
  match alookup org.buildings n with
  | some b => (some b, org)
  | none =>
    if create_mode then
      let b : Building := ⟨org.nextUid, n, []⟩
      (some b, { org with buildings := org.buildings ++ [(n, b)], nextUid := org.nextUid + 1 })
    else (none, org)

/-- `Organization.find_room`: composes `find_building`; creating a room
updates the `rooms` dict of the (possibly just created) building object. -/
def find_room (org : Org) (building_name room_identifier : Option String)
    (create_mode : Bool) : Option Room × Org :=
  let bn := orUndefined building_name
  let rid := orUndefined room_identifier
  let res := find_building org (some bn) create_mode
  match res.1 with
  | some b =>
    match alookup b.rooms rid with
    | some r => (some r, res.2)
    | none =>
      if create_mode then
        let r : Room := ⟨res.2.nextUid, b.uid, rid, []⟩
        let b1 := { b with rooms := b.rooms ++ [(rid, r)] }
        (some r, { res.2 with buildings := aset res.2.buildings bn b1,
                              nextUid := res.2.nextUid + 1 })
      else (none, res.2)
  | none => (none, res.2)

/-- The attribute filter of `find_user`:
`(not name or name == found.name) and (not phone or phone == found.phone)`. -/
def userMatch (name phone : Option String) (u : User) : Bool :=
  (!(strTruthy name) || name == some u.name) &&
  (!(strTruthy phone) || phone == some u.phone)

/-- The inner `email_lookup` of `find_user` (only invoked with a truthy
email). -/
def email_lookup (users : List (String × List User)) (e : String)
    (name phone : Option String) : List User :=
  match alookup users e with
  | none => []
  | some l =>
    if l.isEmpty then []
    else if strTruthy name || strTruthy phone then l.filter (userMatch name phone)
    else l

/-- The inner `name_phone_lookup` of `find_user`: linear scan over every
registered user, in registry order. -/
def name_phone_lookup (users : List (String × List User))
    (name phone : Option String) : List User :=
  ((users.map Prod.snd).flatten).filter (userMatch name phone)

/-- `Organization.find_user`. -/
def find_user (org : Org) (email name phone : Option String) (create_mode : Bool) :
    List User × Org :=
  if !(strTruthy email || strTruthy name || strTruthy phone || create_mode) then
    ([], org)
  else
    let lookup_results :=
      if strTruthy email then email_lookup org.users (email.getD "") name phone
      else if strTruthy name || strTruthy phone then name_phone_lookup org.users name phone
      else []
    if !lookup_results.isEmpty then (lookup_results, org)
    else if create_mode then
      let user_email := orUndefined email
      let user_name := orUndefined name
      let user_phone := orUndefined phone
      let u : User := ⟨org.nextUid, user_email, user_name, user_phone, []⟩
      -- `if not self.users.get(user_email): self.users[user_email] = []`
      -- followed by `self.users[user_email].append(new_user)`
      let users1 :=
        match alookup org.users user_email with
        | some l => aset org.users user_email (l ++ [u])
        | none => org.users ++ [(user_email, [u])]
      ([u], { org with users := users1, nextUid := org.nextUid + 1 })
    else ([], org)

/-- Append a ticket to the `tickets` list of the room with the given
identity (`ticket.room.tickets.append(ticket)`; room objects live inside
their building's `rooms` dict). -/
def appendRoomTicket (bs : List (String × Building)) (roomUid : Nat) (t : Ticket) :
    List (String × Building) :=
  bs.map fun p =>
    (p.1, { p.2 with rooms := p.2.rooms.map fun q =>
      (q.1, if q.2.uid = roomUid then { q.2 with tickets := q.2.tickets ++ [t] } else q.2) })

/-- `ticket.requestor.tickets.append(ticket)`. -/
def appendUserTicket (us : List (String × List User)) (uid : Nat) (t : Ticket) :
    List (String × List User) :=
  us.map fun p =>
    (p.1, p.2.map fun u => if u.uid = uid then { u with tickets := u.tickets ++ [t] } else u)

/-- `ticket.responsible_group.tickets.append(ticket)`. -/
def appendGroupTicket (gs : List (String × Group)) (uid : Nat) (t : Ticket) :
    List (String × Group) :=
  gs.map fun p =>
    (p.1, if p.2.uid = uid then { p.2 with tickets := p.2.tickets ++ [t] } else p.2)

/-- `ticket.department.tickets.append(ticket)`. -/
def appendDeptTicket (ds : List (String × Department)) (uid : Nat) (t : Ticket) :
    List (String × Department) :=
  ds.map fun p =>
    (p.1, if p.2.uid = uid then { p.2 with tickets := p.2.tickets ++ [t] } else p.2)

/-- `Organization.add_new_ticket`: store the ticket in the `tickets` dict
under its id (overwriting any previous ticket with that id) and append it
to the back-reference lists of its room, requestor, group and department.
The validity assertions of the source (id is an `int`, `created` and
`modified` are not strings) hold by construction in this typed model. -/
def add_new_ticket (org : Org) (t : Ticket) : Org :=
  { org with
    tickets := aset org.tickets t.id t,
    buildings := appendRoomTicket org.buildings t.room.uid t,
    users := appendUserTicket org.users t.requestor t,
    groups := appendGroupTicket org.groups t.responsible_group t,
    departments := appendDeptTicket org.departments t.department t }

/-! ## Aggregation queries (organization.py) -/

/-- `DEFAULT_WEEKS` (organization.py). -/
def DEFAULT_WEEKS : Nat := 11

/-- Inner loop of `per_building` over the rooms of one building, summing
`len(filter_tickets(room.tickets, args))` and threading the (mutable)
criteria bundle. -/
def perBuildingRooms : List (String × Room) → Args → Nat → Except Unit (Nat × Args)
  | [], args, c => .ok (c, args)
  | (_, r) :: rest, args, c =>
    match filter_tickets r.tickets args [] with
    | .error e => .error e
    | .ok fr => perBuildingRooms rest fr.2 (c + fr.1.length)

/-- Outer loop of `per_building` over every known building, in registry
order; every building gets an entry, starting from 0. -/
def perBuildingLoop : List (String × Building) → Args → List (Nat × Nat) →
    Except Unit (List (Nat × Nat) × Args)
  | [], args, acc => .ok (acc, args)
  | (_, b) :: rest, args, acc =>
    match perBuildingRooms b.rooms args 0 with
    | .error e => .error e
    | .ok cr => perBuildingLoop rest cr.2 (acc ++ [(b.uid, cr.1)])

/-- `Organization.per_building`: counts are keyed by building identity. -/
def per_building (org : Org) (args : Args) : Except Unit (List (Nat × Nat) × Args) :=
  perBuildingLoop org.buildings args []

/-- The first-week search loop of `per_week` when no `termstart` is given:
scan every ticket, tracking the earliest `created`.  Python executes both
`if not first_week: first_week = t.created` and `if t.created < first_week`
on every ticket, so a `None` `created` anywhere raises (`Except.error`). -/
def firstWeekLoop : List Ticket → Option DT → Except Unit (Option DT)
  | [], fw => .ok fw
  | t :: rest, fw =>
    let fw1 := if fw.isNone then t.created else fw
    match t.created, fw1 with
    | some c, some f => firstWeekLoop rest (if dtLt c f then some c else some f)
    | _, _ => .error ()

/-- `first_week` resolution of `per_week`: the given `termstart` if any,
else the earliest ticket `created`; then snapped to its Monday.  An empty
organization without `termstart` leaves `first_week = None` and
`get_monday(None)` raises. -/
def firstWeek (org : Org) (args : Args) : Except Unit DT :=
  match (match args.termstart with
         | some ts => (.ok (some ts) : Except Unit (Option DT))
         | none => firstWeekLoop (org.tickets.map Prod.snd) none) with
  | .error e => .error e
  | .ok (some f) => .ok (get_monday f)
  | .ok none => .error ()

/-- `last_week` resolution of `per_week`: explicit week count first, then
`termend` (snapped to its Monday), then the fixed 11-week default. -/
def lastWeek (args : Args) (first_week : DT) : DT :=
  if natTruthy args.weeks then
    addDays (7 * ((args.weeks.getD 0 : Int) - 1)) first_week
  else
    match args.termend with
    | some te => get_monday te
    | none => addDays (7 * ((DEFAULT_WEEKS : Int) - 1)) first_week

/-- The `while week_i <= last_week` loop building the week buckets at
7-day spacing.  It terminates because each step moves `cur` 7 days
forward while `cur.day` may not exceed `last.day`. -/
def weekKeysAux (last : DT) (cur : DT) : List DT :=
  if h : dtLe cur last then cur :: weekKeysAux last (addDays 7 cur) else []
termination_by ((last.day + 7) - cur.day).toNat
decreasing_by
  simp only [dtLe, Bool.or_eq_true, decide_eq_true_eq, Bool.and_eq_true, beq_iff_eq] at h
  simp only [addDays]
  omega

/-- `week_counts[ticket_week] += 1`: a missing key would raise `KeyError`
in Python, modelled as `Except.error` (the `per_week` proof below shows
this never happens for in-range Mondays). -/
def bump (m : List (DT × Nat)) (k : DT) : Except Unit (List (DT × Nat)) :=
  match alookup m k with
  | some _ => .ok (m.map fun p => if p.1 = k then (p.1, p.2 + 1) else p)
  | none => .error ()

/-- The ticket-sorting loop of `per_week`: snap each filtered ticket to
its Monday and count it when within `[first_week, last_week]`.
`get_monday` of a `None` `created` raises. -/
def perWeekCount (fw lw : DT) : List Ticket → List (DT × Nat) → Except Unit (List (DT × Nat))
  | [], m => .ok m
  | t :: rest, m =>
    match t.created with
    | none => .error ()
    | some c =>
      let tw := get_monday c
      if dtLe fw tw && dtLe tw lw then
        match bump m tw with
        | .error e => .error e
        | .ok m1 => perWeekCount fw lw rest m1
      else
        perWeekCount fw lw rest m

/-- `Organization.per_week`: resolve the week range, pre-populate every
bucket with 0, filter with the term criteria excluded, then sort the
filtered tickets into buckets. -/
def per_week (org : Org) (args : Args) : Except Unit (List (DT × Nat) × Args) :=
  match firstWeek org args with
  | .error e => .error e
  | .ok first_week =>
    let last_week := lastWeek args first_week
    let init := (weekKeysAux last_week first_week).map fun k => (k, 0)
    match filter_tickets (org.tickets.map Prod.snd) args ["termstart", "termend"] with
    | .error e => .error e
    | .ok fr =>
      match perWeekCount first_week last_week fr.1 init with
      | .error e => .error e
      | .ok counts => .ok (counts, fr.2)

/-! ## Report ingestion (report.py) -/

/-- `get_attribute` of `Report.dict_to_ticket`: walk the acceptable column
names in preference order and return the first truthy (present and
non-empty) value, else `None`.  A CSV row is a string-keyed record. -/
def get_attribute (row : List (String × String)) : List String → Option String
  | [] => none
  | c :: rest =>
    match alookup row c with
    | some v => if v ≠ "" then some v else get_attribute row rest
    | none => get_attribute row rest

/-- Column names for the requestor email attribute (`STANDARD_FIELDS`). -/
def requestorEmailCols : List String := ["Requestor Email"]

/-- Column names for the requestor name attribute (`STANDARD_FIELDS`). -/
def requestorNameCols : List String := ["Requestor"]

/-- Column names for the requestor phone attribute (`STANDARD_FIELDS`). -/
def requestorPhoneCols : List String := ["Requestor Phone"]

/-- The three requestor identity arguments that `Report.dict_to_ticket`
passes to `find_user` (report.py lines 172-175), transcribed exactly:

* email: `get_attribute("requestor_email") if get_attribute("requestor_email") else "Undefined"`
* name: `get_attribute("requestor_name") if get_attribute("requestor_name") else "Undefined"`
* phone: `get_attribute("requestor_phone") if get_attribute("requestor_email") else "Undefined"`

Note the condition of the phone expression reads the **email** attribute. -/
def requestor_args (row : List (String × String)) :
    Option String × Option String × Option String :=
  let email :=
    if strTruthy (get_attribute row requestorEmailCols) then get_attribute row requestorEmailCols
    else some "Undefined"
  let name :=
    if strTruthy (get_attribute row requestorNameCols) then get_attribute row requestorNameCols
    else some "Undefined"
  let phone :=
    if strTruthy (get_attribute row requestorEmailCols) then get_attribute row requestorPhoneCols
    else some "Undefined"
  (email, name, phone)

/-- `TIME_FORMATS` (report.py): the fixed ordered list of candidate
datetime format patterns. -/
def TIME_FORMATS : List String :=
  ["%Y-%m-%d %H:%M", "%m/%d/%Y %H:%M", "%m/%d/%y %H:%M", "%d.%m.%Y %H:%M", "%d.%m.%y %H:%M",
   "%Y-%m-%d %I:%M %p", "%m/%d/%Y %I:%M %p", "%m/%d/%y %I:%M %p", "%d.%m.%Y %I:%M %p",
   "%d.%m.%y %I:%M %p"]

/-- The `for try_format in TIME_FORMATS` loop of `get_time_format`:
return the first format that parses, else raise `BadReportError`.
The `strptime` success predicate `p text format` abstracts the Python
standard library parser, which is outside this repository. -/
def tryFormats (p : String → String → Bool) (text : String) :
    List String → Except Unit (Option String)
  | [] => .error ()
  | f :: rest => if p text f then .ok (some f) else tryFormats p text rest

/-- `get_time_format` (report.py): examine `Created` if truthy, else
`Modified`; no truthy value means no format (`none`); otherwise scan
`TIME_FORMATS` in order. -/
def get_time_format (p : String → String → Bool) (row : List (String × String)) :
    Except Unit (Option String) :=
  if strTruthy (alookup row "Created") then
    tryFormats p ((alookup row "Created").getD "") TIME_FORMATS
  else if strTruthy (alookup row "Modified") then
    tryFormats p ((alookup row "Modified").getD "") TIME_FORMATS
  else
    .ok none

/-! ## General lemmas -/

theorem toNat_ofNat_valid (n : Nat) (h : n < 0xd800) : (Char.ofNat n).toNat = n := by
  simp only [Char.ofNat, Char.ofNatAux, Nat.isValidChar, UInt32.isValidChar, Char.toNat]
  rw [dif_pos (Or.inl h)]
  simp [UInt32.toNat, BitVec.toNat_ofNatLt]

theorem char_le_toNat (c : Char) (n : UInt32) : (c.val ≤ n) ↔ c.toNat ≤ n.toNat := by
  simp [UInt32.le_def, BitVec.le_def, Char.toNat, UInt32.toNat]

theorem char_ge_toNat (c : Char) (n : UInt32) : (n ≤ c.val) ↔ n.toNat ≤ c.toNat := by
  simp [UInt32.le_def, BitVec.le_def, Char.toNat, UInt32.toNat]

theorem isAlpha_toNat {c : Char} :
    c.isAlpha = true ↔ (65 ≤ c.toNat ∧ c.toNat ≤ 90) ∨ (97 ≤ c.toNat ∧ c.toNat ≤ 122) := by
  simp [Char.isAlpha, Char.isUpper, Char.isLower, char_le_toNat, char_ge_toNat]
  rfl

/-- `toLower` keeps basic latin letters alphabetic and is idempotent on
them. -/
theorem toLower_fix {c : Char} (h : c.isAlpha = true) :
    c.toLower.isAlpha = true ∧ c.toLower.toLower = c.toLower := by
  rw [isAlpha_toNat] at h
  unfold Char.toLower
  rcases h with ⟨h1, h2⟩ | ⟨h1, h2⟩
  · rw [if_pos ⟨h1, h2⟩]
    have hv : (Char.ofNat (c.toNat + 32)).toNat = c.toNat + 32 :=
      toNat_ofNat_valid _ (by omega)
    constructor
    · rw [isAlpha_toNat, hv]; omega
    · rw [if_neg (by rw [hv]; omega)]
  · rw [if_neg (by omega)]
    constructor
    · rw [isAlpha_toNat]; omega
    · rw [if_neg (by omega)]

/-- Diagnosis canonicalization is idempotent. -/
theorem canon_canon (s : String) : canon (canon s) = canon s := by
  have hfix : ∀ c ∈ (s.data.filter Char.isAlpha).map Char.toLower, c.isAlpha = true := by
    intro c hc
    rcases List.mem_map.mp hc with ⟨d, hd, rfl⟩
    exact (toLower_fix (List.of_mem_filter hd)).1
  have h1 : ((s.data.filter Char.isAlpha).map Char.toLower).filter Char.isAlpha =
      (s.data.filter Char.isAlpha).map Char.toLower :=
    List.filter_eq_self.mpr hfix
  have h2 : ∀ c ∈ (s.data.filter Char.isAlpha).map Char.toLower, c.toLower = c := by
    intro c hc
    rcases List.mem_map.mp hc with ⟨d, hd, rfl⟩
    exact (toLower_fix (List.of_mem_filter hd)).2
  show String.mk ((((s.data.filter Char.isAlpha).map Char.toLower).filter
      Char.isAlpha).map Char.toLower) = String.mk ((s.data.filter Char.isAlpha).map Char.toLower)
  apply congrArg String.mk
  rw [h1]
  calc ((s.data.filter Char.isAlpha).map Char.toLower).map Char.toLower
      = ((s.data.filter Char.isAlpha).map Char.toLower).map id := List.map_congr_left h2
    _ = (s.data.filter Char.isAlpha).map Char.toLower := List.map_id _

/-- `alookup` over an appended singleton, missing from the prefix. -/
theorem alookup_append_missing {κ α : Type} [DecidableEq κ] (l : List (κ × α)) (k : κ) (v : α)
    (h : alookup l k = none) : alookup (l ++ [(k, v)]) k = some v := by
  induction l with
  | nil => simp [alookup]
  | cons p rest ih =>
    obtain ⟨pk, pv⟩ := p
    simp only [List.cons_append, alookup] at h ⊢
    by_cases hp : pk = k
    · rw [if_pos hp] at h; cases h
    · rw [if_neg hp] at h ⊢
      exact ih h

/-- A key present in the key list of an association list is found. -/
theorem alookup_isSome_of_mem {κ α : Type} [DecidableEq κ] (l : List (κ × α)) (k : κ)
    (h : k ∈ l.map Prod.fst) : ∃ v, alookup l k = some v := by
  induction l with
  | nil => simp at h
  | cons p rest ih =>
    obtain ⟨pk, pv⟩ := p
    simp only [alookup]
    by_cases hp : pk = k
    · exact ⟨pv, by rw [if_pos hp]⟩
    · rw [if_neg hp]
      simp only [List.map_cons, List.mem_cons] at h
      exact ih (h.resolve_left (fun he => hp he.symm))

/-- `dtLe` unfolded to a linear-arithmetic proposition. -/
theorem dtLe_iff (a b : DT) :
    dtLe a b = true ↔ (a.day < b.day ∨ (a.day = b.day ∧ a.sec ≤ b.sec)) := by
  simp [dtLe]

/-- `dtLt` unfolded to a linear-arithmetic proposition. -/
theorem dtLt_iff (a b : DT) :
    dtLt a b = true ↔ (a.day < b.day ∨ (a.day = b.day ∧ a.sec < b.sec)) := by
  simp [dtLt]

/-- The `datetime` order is total: `a <= b` iff not `b < a`. -/
theorem dtLe_eq_not_dtLt (a b : DT) : dtLe a b = !(dtLt b a) := by
  have h1 := dtLe_iff a b
  have h2 := dtLt_iff b a
  cases hx : dtLe a b <;> cases hy : dtLt b a <;> rw [hx] at h1 <;> rw [hy] at h2 <;>
    simp only [Bool.not_true, Bool.not_false] <;> simp at h1 h2 ⊢ <;> omega

/-- Boolean `any`-with-`contains` as an intersection statement. -/
theorem any_contains_iff {l m : List String} :
    (l.any fun x => m.contains x) = true ↔ ∃ x ∈ l, x ∈ m := by
  rw [List.any_eq_true]
  constructor
  · rintro ⟨x, hx, hc⟩; exact ⟨x, hx, List.elem_iff.mp hc⟩
  · rintro ⟨x, hx, hc⟩; exact ⟨x, hx, List.elem_iff.mpr hc⟩

/-- Boolean `all`-with-`contains` as a subset statement. -/
theorem all_contains_iff {l m : List String} :
    (l.all fun x => m.contains x) = true ↔ ∀ x ∈ l, x ∈ m := by
  rw [List.all_eq_true]
  constructor
  · intro h x hx; exact List.elem_iff.mp (h x hx)
  · intro h x hx; exact List.elem_iff.mpr (h x hx)

/-! ## Claim C1 (report.py, `Report.dict_to_ticket` requestor identity)

The claim states that every blank requestor identity component — email,
name, and **phone** — is replaced by "Undefined" before `find_user` is
invoked, so user resolution never receives a `None` component.  The code
comment (report.py line 171, `pass "Undefined" for blanks so no "partial
matches"`) states the same intent.  The code itself does not do this for
the phone: line 174 guards the phone expression with the **email**
attribute (`get_attribute("requestor_phone") if
get_attribute("requestor_email") else "Undefined"`), so
* a record with a truthy email and a blank phone passes `phone = None`,
* a record with a blank email and a truthy phone discards the phone and
  passes `phone = "Undefined"`.
This is a code bug: the code contradicts its own comment and the spec. -/

/-- C1: at the failing input (email present, phone column blank) the
phone argument handed to user resolution is `none` (Python `None`), not
`"Undefined"`; and with a blank email the actual phone value is replaced
by `"Undefined"`. -/
theorem c1_requestor_phone_bug :
    requestor_args [("Requestor Email", "a@example.com"), ("Requestor Phone", "")] =
      (some "a@example.com", some "Undefined", none) ∧
    requestor_args [("Requestor Email", ""), ("Requestor Phone", "5415551234")] =
      (some "Undefined", some "Undefined", some "Undefined") := by
  decide

/-! ## Claim C3 (organization.py, `diagnoses_match` OR/AND semantics) -/

/-- C3: with a non-empty OR filter (`diagnoses`), a ticket matches iff
some canonicalized given label is among the ticket's canonicalized labels
(non-empty intersection); with a non-empty AND filter (`anddiagnoses`,
and no OR filter), it matches iff every canonicalized given label is
among the ticket's canonicalized labels (subset). -/
theorem c3_diagnoses_or_and (args : Args) (t : Ticket) (gs : List String) :
    (args.diagnoses = some gs → gs ≠ [] →
      ((diagnoses_match args t).1 = true ↔
        ∃ x ∈ gs.map canon, x ∈ t.diagnoses.map canon)) ∧
    (args.diagnoses = none → args.anddiagnoses = some gs → gs ≠ [] →
      ((diagnoses_match args t).1 = true ↔
        ∀ x ∈ gs.map canon, x ∈ t.diagnoses.map canon)) := by
  constructor
  · intro hd hne
    have htr : listTruthy args.diagnoses = true := by
      simp [listTruthy, hd, List.isEmpty_iff, hne]
    unfold diagnoses_match
    rw [if_pos htr, hd]
    simp only [Option.getD_some]
    by_cases hany : ((gs.map canon).any fun x => (t.diagnoses.map canon).contains x) = true
    · rw [if_neg (by rw [hany]; decide)]
      exact iff_of_true rfl (any_contains_iff.mp hany)
    · have hf : ((gs.map canon).any fun x => (t.diagnoses.map canon).contains x) = false := by
        revert hany
        cases ((gs.map canon).any fun x => (t.diagnoses.map canon).contains x) <;> simp
      rw [if_pos (by rw [hf]; decide)]
      exact iff_of_false Bool.false_ne_true (fun hc => hany (any_contains_iff.mpr hc))
  · intro hd ha hne
    have htr : listTruthy args.diagnoses = false := by simp [listTruthy, hd]
    have htr2 : listTruthy args.anddiagnoses = true := by
      simp [listTruthy, ha, List.isEmpty_iff, hne]
    unfold diagnoses_match
    rw [if_neg (by simp [htr]), if_pos htr2, ha]
    simp only [Option.getD_some]
    by_cases hall : ((gs.map canon).all fun x => (t.diagnoses.map canon).contains x) = true
    · rw [if_neg (by rw [hall]; decide)]
      have hany : ((gs.map canon).any fun x => (t.diagnoses.map canon).contains x) = true := by
        rcases List.exists_mem_of_ne_nil gs hne with ⟨x, hx⟩
        refine any_contains_iff.mpr ⟨canon x, List.mem_map_of_mem canon hx, ?_⟩
        exact all_contains_iff.mp hall (canon x) (List.mem_map_of_mem canon hx)
      rw [if_neg (by rw [hany]; decide)]
      exact iff_of_true rfl (all_contains_iff.mp hall)
    · have hf : ((gs.map canon).all fun x => (t.diagnoses.map canon).contains x) = false := by
        revert hall
        cases ((gs.map canon).all fun x => (t.diagnoses.map canon).contains x) <;> simp
      rw [if_pos (by rw [hf]; decide)]
      exact iff_of_false Bool.false_ne_true (fun hc => hall (all_contains_iff.mpr hc))

/-- Ticket with diagnoses `{A, B}` for the C3 witness. -/
def ticketAB : Ticket :=
  ⟨1, none, ⟨0, 0⟩, 0, 0, 0, none, none, ["A", "B"], none⟩

/-- C3 witness: with ticket diagnoses `{A, B}` and filter `{A, C}`,
OR mode admits the ticket and AND mode rejects it. -/
theorem c3_diagnoses_or_and_witness :
    (diagnoses_match { Args.empty with diagnoses := some ["A", "C"] } ticketAB).1 = true ∧
    (diagnoses_match { Args.empty with anddiagnoses := some ["A", "C"] } ticketAB).1 = false := by
  constructor
  · exact ((c3_diagnoses_or_and { Args.empty with diagnoses := some ["A", "C"] }
      ticketAB ["A", "C"]).1 rfl (by decide)).mpr (by decide)
  · have h := ((c3_diagnoses_or_and { Args.empty with anddiagnoses := some ["A", "C"] }
      ticketAB ["A", "C"]).2 rfl rfl (by decide))
    by_contra hc
    simp only [Bool.not_eq_false] at hc
    have := h.mp hc
    revert this
    decide

/-! ## Claim C5 (organization.py, `term_end` boundary in `filter_tickets`)

The code advances the bound by one day (`term_end += timedelta(days=1)`)
and then rejects tickets with `created > term_end` — a **strict**
comparison against the start of the following calendar day.  A ticket
created exactly at that midnight instant therefore still passes, while
the claim says a ticket created at or after the start of the following
calendar day does not pass. -/

/-- Ticket created exactly at midnight of day 101. -/
def ticketC5 : Ticket :=
  ⟨1, none, ⟨0, 0⟩, 0, 0, 0, some ⟨101, 0⟩, none, [], none⟩

/-- Criteria bundle with `term_end` at midnight of day 100. -/
def argsC5 : Args :=
  { Args.empty with termend := some ⟨100, 0⟩ }

/-- C5 counterexample: the ticket is created exactly at the start of the
calendar day following the `term_end` day (midnight of day 101), yet
`filter_tickets` keeps it. -/
theorem c5_counterexample :
    ticketC5.created = some (addDays 1 ⟨100, 0⟩) ∧
    filter_tickets [ticketC5] argsC5 [] = .ok ([ticketC5], argsC5) :=
  ⟨rfl, rfl⟩

/-- C5 amended: with `term_end` at midnight of day `E`, a ticket passes
the `term_end` criterion iff its creation time is less than **or equal
to** midnight of day `E + 1`.  In particular a ticket created at any
time of day on day `E` passes, and a ticket created strictly after
midnight of day `E + 1` is rejected — but one created exactly at that
midnight instant also passes. -/
theorem c5_termend_next_day_bound (E : Int) (t : Ticket) (c : DT)
    (h : t.created = some c) :
    (filter_tickets [t] { Args.empty with termend := some ⟨E, 0⟩ } [] =
        .ok ([t], { Args.empty with termend := some ⟨E, 0⟩ }) ↔
      dtLe c ⟨E + 1, 0⟩ = true) ∧
    (c.day = E →
      filter_tickets [t] { Args.empty with termend := some ⟨E, 0⟩ } [] =
        .ok ([t], { Args.empty with termend := some ⟨E, 0⟩ })) ∧
    (dtLt ⟨E + 1, 0⟩ c = true →
      filter_tickets [t] { Args.empty with termend := some ⟨E, 0⟩ } [] =
        .ok ([], { Args.empty with termend := some ⟨E, 0⟩ })) := by
  have key : filter_tickets [t] { Args.empty with termend := some ⟨E, 0⟩ } [] =
      .ok ((if dtLt ⟨E + 1, 0⟩ c then [] else [t]),
        { Args.empty with termend := some ⟨E, 0⟩ }) := by
    cases hlt : dtLt ⟨E + 1, 0⟩ c <;>
      simp [filter_tickets, filterLoop, createdGt, h, diagnoses_match, listTruthy,
        Args.empty, addDays, hlt]
  refine ⟨?_, ?_, ?_⟩
  · rw [key, dtLe_eq_not_dtLt]
    cases hlt : dtLt ⟨E + 1, 0⟩ c
    · simp
    · simp
  · intro hd
    have hlt : dtLt ⟨E + 1, 0⟩ c = false := by
      cases hx : dtLt ⟨E + 1, 0⟩ c
      · rfl
      · exfalso
        have hx2 := (dtLt_iff ⟨E + 1, 0⟩ c).mp hx
        dsimp only at hx2
        omega
    rw [key, hlt]
    simp
  · intro hlt
    rw [key, hlt]
    simp

/-- C5 witness: a ticket created at 01:00 on the `term_end` day itself
(day 100) passes. -/
theorem c5_termend_next_day_bound_witness :
    filter_tickets [{ ticketC5 with created := some ⟨100, 3600⟩ }] argsC5 [] =
      .ok ([{ ticketC5 with created := some ⟨100, 3600⟩ }], argsC5) :=
  (c5_termend_next_day_bound 100 { ticketC5 with created := some ⟨100, 3600⟩ }
    ⟨100, 3600⟩ rfl).2.1 rfl

/-! ## Claim C8 (report.py, `get_time_format` outcomes) -/

/-- Spec-side restatement of time-format inference, following the words
of the claim: examine the `Created` value if present (truthy), else the
`Modified` value; with no value, no format (`none`); with a value,
return the **first** format of the fixed ordered list that parses it,
and fail (bad-report error) when none does. -/
def get_time_format_spec (p : String → String → Bool) (row : List (String × String)) :
    Except Unit (Option String) :=
  match (if strTruthy (alookup row "Created") then alookup row "Created"
         else if strTruthy (alookup row "Modified") then alookup row "Modified"
         else none) with
  | none => .ok none
  | some v =>
    match TIME_FORMATS.find? (p v) with
    | some f => .ok (some f)
    | none => .error ()

/-- The format-scanning loop returns the first parsing format of the
list, and errs iff none parses. -/
theorem tryFormats_eq_find (p : String → String → Bool) (v : String) (l : List String) :
    tryFormats p v l =
      (match l.find? (p v) with
       | some f => .ok (some f)
       | none => .error ()) := by
  induction l with
  | nil => rfl
  | cons f rest ih =>
    simp only [tryFormats, List.find?]
    cases hp : p v f
    · simpa [hp] using ih
    · simp [hp]

/-- The format-scanning loop never produces an "absent format" result:
its only outcomes are the first parsing format or an error. -/
theorem tryFormats_ne_ok_none (p : String → String → Bool) (v : String) (l : List String) :
    tryFormats p v l ≠ .ok none := by
  induction l with
  | nil => simp [tryFormats]
  | cons f rest ih =>
    simp only [tryFormats]
    cases hp : p v f
    · simpa using ih
    · simp

/-- C8: `get_time_format` realizes exactly the claimed outcome function:
`Created`-else-`Modified` selection, `none` without a value, first
parsing format otherwise, error when a value parses under no format —
and the no-format outcome happens precisely when neither value is
present. -/
theorem c8_time_format_outcomes (p : String → String → Bool) (row : List (String × String)) :
    get_time_format p row = get_time_format_spec p row ∧
    (get_time_format p row = .ok none ↔
      strTruthy (alookup row "Created") = false ∧ strTruthy (alookup row "Modified") = false) := by
  have heq : get_time_format p row = get_time_format_spec p row := by
    unfold get_time_format get_time_format_spec
    by_cases h1 : strTruthy (alookup row "Created") = true
    · rw [if_pos h1, if_pos h1]
      cases hc : alookup row "Created" with
      | none => rw [hc] at h1; simp [strTruthy] at h1
      | some v => exact tryFormats_eq_find p v TIME_FORMATS
    · rw [if_neg h1, if_neg h1]
      by_cases h2 : strTruthy (alookup row "Modified") = true
      · rw [if_pos h2, if_pos h2]
        cases hm : alookup row "Modified" with
        | none => rw [hm] at h2; simp [strTruthy] at h2
        | some v => exact tryFormats_eq_find p v TIME_FORMATS
      · rw [if_neg h2, if_neg h2]
  refine ⟨heq, ?_⟩
  unfold get_time_format
  by_cases h1 : strTruthy (alookup row "Created") = true
  · rw [if_pos h1]
    constructor
    · intro hres
      exact absurd hres (tryFormats_ne_ok_none p _ TIME_FORMATS)
    · rintro ⟨hf, _⟩
      rw [h1] at hf; cases hf
  · rw [if_neg h1]
    have h1f : strTruthy (alookup row "Created") = false := by
      revert h1; cases strTruthy (alookup row "Created") <;> simp
    by_cases h2 : strTruthy (alookup row "Modified") = true
    · rw [if_pos h2]
      constructor
      · intro hres
        exact absurd hres (tryFormats_ne_ok_none p _ TIME_FORMATS)
      · rintro ⟨_, hf⟩
        rw [h2] at hf; cases hf
    · rw [if_neg h2]
      have h2f : strTruthy (alookup row "Modified") = false := by
        revert h2; cases strTruthy (alookup row "Modified") <;> simp
      simp [h1f, h2f]

/-! ## Claim C6 (organization.py, `filter_tickets` mutates the bundle)

`diagnoses_match` rebinds `given_diagnoses[i]` where `given_diagnoses`
aliases the list stored in `args`, so the first examined ticket rewrites
the stored diagnosis labels to their canonicalized forms.  The bundle is
therefore *not* left unchanged. -/

/-- Canonicalizing a list of labels is idempotent. -/
theorem canonAll_idem (l : List String) : (l.map canon).map canon = l.map canon := by
  rw [List.map_map]
  exact List.map_congr_left fun s _ => canon_canon s

/-- Simulation relation between the original bundle and the bundle after
some number of `diagnoses_match` calls: every non-diagnosis criterion is
untouched and each diagnosis list is either untouched or canonicalized. -/
def ArgsSim (a0 a : Args) : Prop :=
  a.termstart = a0.termstart ∧ a.termend = a0.termend ∧ a.building = a0.building ∧
  a.requestors = a0.requestors ∧ a.weeks = a0.weeks ∧
  (a.diagnoses = a0.diagnoses ∨ a.diagnoses = a0.diagnoses.map (List.map canon)) ∧
  (a.anddiagnoses = a0.anddiagnoses ∨ a.anddiagnoses = a0.anddiagnoses.map (List.map canon))

theorem argsSim_refl (a : Args) : ArgsSim a a :=
  ⟨rfl, rfl, rfl, rfl, rfl, Or.inl rfl, Or.inl rfl⟩

/-- The canonicalized image of an optional diagnosis list, after one
canonicalization step, given the simulation disjunction. -/
theorem canon_option_step (o0 o : Option (List String)) (gs : List String)
    (hgs : o = some gs) (h : o = o0 ∨ o = o0.map (List.map canon)) :
    (some ((o.getD []).map canon) : Option (List String)) = o0.map (List.map canon) := by
  subst hgs
  rcases h with h | h
  · rw [← h]; rfl
  · cases hx : o0 with
    | none => rw [hx] at h; cases h
    | some l =>
      rw [hx] at h
      have hg : gs = List.map canon l := Option.some.inj h
      show (some (List.map canon gs) : Option (List String)) = some (List.map canon l)
      rw [hg, canonAll_idem]

/-- One `diagnoses_match` call preserves the simulation relation. -/
theorem diagnoses_match_argsSim (a0 a : Args) (t : Ticket) (h : ArgsSim a0 a) :
    ArgsSim a0 (diagnoses_match a t).2 := by
  obtain ⟨h1, h2, h3, h4, h5, h6, h7⟩ := h
  unfold diagnoses_match
  by_cases hd : listTruthy a.diagnoses = true
  · rw [if_pos hd]
    have hsome : ∃ gs, a.diagnoses = some gs := by
      cases hx : a.diagnoses
      · rw [hx] at hd; simp [listTruthy] at hd
      · exact ⟨_, rfl⟩
    obtain ⟨gs, hgs⟩ := hsome
    have hnew := canon_option_step a0.diagnoses a.diagnoses gs hgs h6
    dsimp only
    split
    · exact ⟨h1, h2, h3, h4, h5, Or.inr hnew, h7⟩
    · exact ⟨h1, h2, h3, h4, h5, Or.inr hnew, h7⟩
  · rw [if_neg hd]
    by_cases ha : listTruthy a.anddiagnoses = true
    · rw [if_pos ha]
      have hsome : ∃ gs, a.anddiagnoses = some gs := by
        cases hx : a.anddiagnoses
        · rw [hx] at ha; simp [listTruthy] at ha
        · exact ⟨_, rfl⟩
      obtain ⟨gs, hgs⟩ := hsome
      have hnew := canon_option_step a0.anddiagnoses a.anddiagnoses gs hgs h7
      dsimp only
      split
      · exact ⟨h1, h2, h3, h4, h5, h6, Or.inr hnew⟩
      · split
        · exact ⟨h1, h2, h3, h4, h5, h6, Or.inr hnew⟩
        · exact ⟨h1, h2, h3, h4, h5, h6, Or.inr hnew⟩
    · rw [if_neg ha]
      exact ⟨h1, h2, h3, h4, h5, h6, h7⟩

/-- The filtering loop preserves the simulation relation on the threaded
bundle. -/
theorem filterLoop_argsSim (ts te : Option DT) (b : Option Nat) (rq : Option (List Nat))
    (a0 : Args) (tickets : List Ticket) :
    ∀ (a : Args) (acc out : List Ticket) (a1 : Args),
      ArgsSim a0 a → filterLoop ts te b rq tickets a acc = .ok (out, a1) → ArgsSim a0 a1 := by
  induction tickets with
  | nil =>
    intro a acc out a1 hsim h
    simp only [filterLoop, Except.ok.injEq, Prod.mk.injEq] at h
    rw [← h.2]
    exact hsim
  | cons t rest ih =>
    intro a acc out a1 hsim h
    simp only [filterLoop] at h
    split at h
    · exact ih a acc out a1 hsim h
    · split at h
      · exact ih a acc out a1 hsim h
      · split at h
        · cases h
        · split at h
          · exact ih a acc out a1 hsim h
          · split at h
            · cases h
            · split at h
              · exact ih a acc out a1 hsim h
              · split at h
                · exact ih (diagnoses_match a t).2 (acc ++ [t]) out a1
                    (diagnoses_match_argsSim a0 a t hsim) h
                · exact ih (diagnoses_match a t).2 acc out a1
                    (diagnoses_match_argsSim a0 a t hsim) h

/-- Canonicalizing an optional diagnosis list twice equals once. -/
theorem canon_option_idem (o : Option (List String)) :
    (o.map (List.map canon)).map (List.map canon) = o.map (List.map canon) := by
  cases o with
  | none => rfl
  | some l =>
    simp only [Option.map_some', Option.some.injEq]
    exact canonAll_idem l

/-- Ticket for the C6 counterexample, diagnosed `Cable--HDMI`. -/
def ticketC6 : Ticket :=
  ⟨1, none, ⟨0, 0⟩, 0, 0, 0, none, none, ["Cable--HDMI"], none⟩

/-- Criteria bundle with the raw OR filter label `Cable--HDMI`. -/
def argsC6 : Args :=
  { Args.empty with diagnoses := some ["Cable--HDMI"] }

/-- The same bundle after `filter_tickets` has canonicalized the stored
list in place. -/
def argsC6post : Args :=
  { Args.empty with diagnoses := some ["cablehdmi"] }

/-- C6 counterexample: one `filter_tickets` call over a single ticket
rewrites the label list stored under the `diagnoses` key from
`["Cable--HDMI"]` to `["cablehdmi"]` — the bundle does not keep the same
label strings. -/
theorem c6_counterexample :
    filter_tickets [ticketC6] argsC6 [] = .ok ([ticketC6], argsC6post) ∧
    argsC6post ≠ argsC6 := by
  exact ⟨rfl, by decide⟩

/-- C6 amended: `filter_tickets` leaves every non-diagnosis criterion of
the bundle unchanged, and leaves each diagnosis list either unchanged or
replaced in place by its canonicalized image (same labels up to
canonicalization, not necessarily the same strings). -/
theorem c6_filter_mutates_only_diagnosis_lists
    (tickets : List Ticket) (args : Args) (exclude : List String)
    (out : List Ticket) (args1 : Args)
    (h : filter_tickets tickets args exclude = .ok (out, args1)) :
    args1.termstart = args.termstart ∧ args1.termend = args.termend ∧
    args1.building = args.building ∧ args1.requestors = args.requestors ∧
    args1.weeks = args.weeks ∧
    (args1.diagnoses = args.diagnoses ∨
      args1.diagnoses = args.diagnoses.map (List.map canon)) ∧
    (args1.anddiagnoses = args.anddiagnoses ∨
      args1.anddiagnoses = args.anddiagnoses.map (List.map canon)) ∧
    args1.diagnoses.map (List.map canon) = args.diagnoses.map (List.map canon) ∧
    args1.anddiagnoses.map (List.map canon) = args.anddiagnoses.map (List.map canon) := by
  unfold filter_tickets at h
  have hsim := filterLoop_argsSim _ _ _ _ args tickets args [] out args1 (argsSim_refl args) h
  obtain ⟨h1, h2, h3, h4, h5, h6, h7⟩ := hsim
  refine ⟨h1, h2, h3, h4, h5, h6, h7, ?_, ?_⟩
  · rcases h6 with h6 | h6
    · rw [h6]
    · rw [h6, canon_option_idem]
  · rcases h7 with h7 | h7
    · rw [h7]
    · rw [h7, canon_option_idem]

/-- C6 witness: the amended statement applied to the concrete mutating
run of the counterexample input. -/
theorem c6_filter_mutates_only_diagnosis_lists_witness :
    argsC6post.termstart = argsC6.termstart ∧ argsC6post.termend = argsC6.termend ∧
    argsC6post.building = argsC6.building ∧ argsC6post.requestors = argsC6.requestors ∧
    argsC6post.weeks = argsC6.weeks ∧
    (argsC6post.diagnoses = argsC6.diagnoses ∨
      argsC6post.diagnoses = argsC6.diagnoses.map (List.map canon)) ∧
    (argsC6post.anddiagnoses = argsC6.anddiagnoses ∨
      argsC6post.anddiagnoses = argsC6.anddiagnoses.map (List.map canon)) ∧
    argsC6post.diagnoses.map (List.map canon) = argsC6.diagnoses.map (List.map canon) ∧
    argsC6post.anddiagnoses.map (List.map canon) = argsC6.anddiagnoses.map (List.map canon) :=
  c6_filter_mutates_only_diagnosis_lists [ticketC6] argsC6 [] [ticketC6] argsC6post rfl

/-! ## Claim C9 (organization.py, `None` timestamps vs term criteria) -/

/-- When every ticket has a `created` timestamp, the filtering loop never
fails (the only failure points are `None` comparisons). -/
theorem filterLoop_total (ts te : Option DT) (b : Option Nat) (rq : Option (List Nat))
    (tickets : List Ticket) :
    ∀ (a : Args) (acc : List Ticket),
      (∀ t ∈ tickets, t.created.isSome = true) →
      ∃ r, filterLoop ts te b rq tickets a acc = .ok r := by
  induction tickets with
  | nil =>
    intro a acc _
    exact ⟨(acc, a), rfl⟩
  | cons t rest ih =>
    intro a acc h
    have hhead : t.created.isSome = true := h t (List.mem_cons_self t rest)
    have hrest : ∀ x ∈ rest, x.created.isSome = true :=
      fun x hx => h x (List.mem_cons_of_mem t hx)
    obtain ⟨c, hc⟩ := Option.isSome_iff_exists.mp hhead
    simp only [filterLoop, hc, createdLt, createdGt]
    split
    · exact ih a acc hrest
    · split
      · exact ih a acc hrest
      · cases ts with
        | none =>
          simp only
          split
          · exact ih a acc hrest
          · cases te with
            | none =>
              simp only
              split
              · exact ih a acc hrest
              · split
                · exact ih (diagnoses_match a t).2 (acc ++ [t]) hrest
                · exact ih (diagnoses_match a t).2 acc hrest
            | some e =>
              simp only
              split
              · exact ih a acc hrest
              · split
                · exact ih (diagnoses_match a t).2 (acc ++ [t]) hrest
                · exact ih (diagnoses_match a t).2 acc hrest
        | some s =>
          simp only
          split
          · exact ih a acc hrest
          · cases te with
            | none =>
              simp only
              split
              · exact ih a acc hrest
              · split
                · exact ih (diagnoses_match a t).2 (acc ++ [t]) hrest
                · exact ih (diagnoses_match a t).2 acc hrest
            | some e =>
              simp only
              split
              · exact ih a acc hrest
              · split
                · exact ih (diagnoses_match a t).2 (acc ++ [t]) hrest
                · exact ih (diagnoses_match a t).2 acc hrest

/-- Unfolding of the filtering loop at a cons cell when neither a
building nor a requestor criterion is active (those checks reduce to
`false`). -/
theorem filterLoop_cons_noscreen (ts te : Option DT) (t : Ticket) (rest : List Ticket)
    (a : Args) (acc : List Ticket) :
    filterLoop ts te none none (t :: rest) a acc =
      (match (match ts with
              | some s => createdLt t.created s
              | none => .ok false) with
       | .error e => .error e
       | .ok skipStart =>
         if skipStart then filterLoop ts te none none rest a acc
         else
           match (match te with
                  | some e => createdGt t.created e
                  | none => .ok false) with
           | .error e => .error e
           | .ok skipEnd =>
             if skipEnd then filterLoop ts te none none rest a acc
             else
               if (diagnoses_match a t).1 then
                 filterLoop ts te none none rest (diagnoses_match a t).2 (acc ++ [t])
               else filterLoop ts te none none rest (diagnoses_match a t).2 acc) := rfl

/-- With no building or requestor screening and an active term criterion,
a `None` `created` anywhere makes the filtering loop fail. -/
theorem filterLoop_error_of_none (ts te : Option DT)
    (hterm : ts.isSome = true ∨ te.isSome = true) (tickets : List Ticket) :
    ∀ (a : Args) (acc : List Ticket) (t : Ticket),
      t ∈ tickets → t.created = none →
      filterLoop ts te none none tickets a acc = .error () := by
  induction tickets with
  | nil =>
    intro a acc t hmem
    cases hmem
  | cons t0 rest ih =>
    intro a acc t hmem hnone
    rw [filterLoop_cons_noscreen]
    rcases List.mem_cons.mp hmem with rfl | hmem
    · -- the failing ticket is at the head: the term comparison raises
      rw [hnone]
      cases ts with
      | some s => rfl
      | none =>
        cases te with
        | some e => rfl
        | none =>
          exfalso
          rcases hterm with h | h <;> simp [Option.isSome] at h
    · -- the failing ticket is further on
      cases hc0 : t0.created with
      | none =>
        cases ts with
        | some s => rfl
        | none =>
          cases te with
          | some e => rfl
          | none =>
            exfalso
            rcases hterm with h | h <;> simp [Option.isSome] at h
      | some c0 =>
        cases ts with
        | none =>
          cases te with
          | none =>
            exfalso
            rcases hterm with h | h <;> simp [Option.isSome] at h
          | some e =>
            simp only [createdGt, Bool.false_eq_true, if_false]
            split
            · exact ih a acc t hmem hnone
            · split
              · exact ih (diagnoses_match a t0).2 (acc ++ [t0]) t hmem hnone
              · exact ih (diagnoses_match a t0).2 acc t hmem hnone
        | some s =>
          simp only [createdLt, Bool.false_eq_true, if_false]
          split
          · exact ih a acc t hmem hnone
          · cases te with
            | none =>
              simp only [Bool.false_eq_true, if_false]
              split
              · exact ih (diagnoses_match a t0).2 (acc ++ [t0]) t hmem hnone
              · exact ih (diagnoses_match a t0).2 acc t hmem hnone
            | some e =>
              simp only [createdGt]
              split
              · exact ih a acc t hmem hnone
              · split
                · exact ih (diagnoses_match a t0).2 (acc ++ [t0]) t hmem hnone
                · exact ih (diagnoses_match a t0).2 acc t hmem hnone

/-- The earliest-week scan of `per_week` fails as soon as any ticket has
no `created` timestamp. -/
theorem firstWeekLoop_error_of_none (tickets : List Ticket) :
    ∀ (fw : Option DT) (t : Ticket), t ∈ tickets → t.created = none →
      firstWeekLoop tickets fw = .error () := by
  induction tickets with
  | nil =>
    intro fw t hmem
    cases hmem
  | cons t0 rest ih =>
    intro fw t hmem hnone
    rcases List.mem_cons.mp hmem with rfl | hmem
    · simp only [firstWeekLoop, hnone]
    · cases hc0 : t0.created with
      | none =>
        simp only [firstWeekLoop, hc0]
      | some c0 =>
        simp only [firstWeekLoop, hc0]
        cases fw with
        | none =>
          simp only [Option.isNone_none]
          exact ih _ t hmem hnone
        | some f =>
          simp only [Option.isNone_some]
          exact ih _ t hmem hnone

/-- C9: `filter_tickets` is total when every ticket carries a `created`
timestamp; with an active `termstart`/`termend` criterion (and no earlier
screening), a ticket whose `created` is `None` makes the whole call fail
(it is not merely excluded); and `per_week` without an explicit
`termstart` fails whenever any ticket of the organization lacks
`created`. -/
theorem c9_term_filters_require_created :
    (∀ (tickets : List Ticket) (args : Args) (exclude : List String),
      (∀ t ∈ tickets, t.created.isSome = true) →
      ∃ r, filter_tickets tickets args exclude = .ok r) ∧
    (∀ (tickets : List Ticket) (args : Args) (t : Ticket),
      args.building = none → args.requestors = none →
      (args.termstart.isSome = true ∨ args.termend.isSome = true) →
      t ∈ tickets → t.created = none →
      filter_tickets tickets args [] = .error ()) ∧
    (∀ (org : Org) (args : Args),
      args.termstart = none →
      (∃ p ∈ org.tickets, p.2.created = none) →
      per_week org args = .error ()) := by
  refine ⟨?_, ?_, ?_⟩
  · intro tickets args exclude h
    unfold filter_tickets
    exact filterLoop_total _ _ _ _ tickets args [] h
  · intro tickets args t hb hr hterm hmem hnone
    unfold filter_tickets
    simp only [List.contains, List.elem, hb, hr]
    have hterm2 : (args.termstart.isSome = true ∨ (args.termend.map (addDays 1)).isSome = true) := by
      rcases hterm with h | h
      · exact Or.inl h
      · right
        cases hx : args.termend
        · rw [hx] at h; simp [Option.isSome] at h
        · simp [hx]
    exact filterLoop_error_of_none _ _ hterm2 tickets args [] t hmem hnone
  · intro org args hts ⟨p, hp, hnone⟩
    unfold per_week firstWeek
    rw [hts]
    rw [firstWeekLoop_error_of_none (org.tickets.map Prod.snd) none p.2
      (List.mem_map_of_mem Prod.snd hp) hnone]

/-- Ticket with a missing `created` timestamp. -/
def ticketNoCreated : Ticket :=
  ⟨7, none, ⟨0, 0⟩, 0, 0, 0, none, none, [], none⟩

/-- Organization holding only `ticketNoCreated`. -/
def orgC9 : Org :=
  { Org.init with tickets := [(7, ticketNoCreated)] }

/-- C9 witness: the three statements applied at concrete inputs — a
dated ticket filters fine, the undated ticket makes a `termstart` filter
and a default `per_week` fail. -/
theorem c9_term_filters_require_created_witness :
    (∃ r, filter_tickets [ticketC5] { Args.empty with termstart := some ⟨0, 0⟩ } [] = .ok r) ∧
    filter_tickets [ticketNoCreated] { Args.empty with termstart := some ⟨0, 0⟩ } [] =
      .error () ∧
    per_week orgC9 Args.empty = .error () := by
  refine ⟨?_, ?_, ?_⟩
  · exact c9_term_filters_require_created.1 [ticketC5]
      { Args.empty with termstart := some ⟨0, 0⟩ } [] (by decide)
  · exact c9_term_filters_require_created.2.1 [ticketNoCreated]
      { Args.empty with termstart := some ⟨0, 0⟩ } ticketNoCreated rfl rfl (Or.inl rfl)
      (List.mem_singleton.mpr rfl) rfl
  · exact c9_term_filters_require_created.2.2 orgC9 Args.empty rfl
      ⟨(7, ticketNoCreated), List.mem_singleton.mpr rfl, rfl⟩

/-! ## Claim C2 (organization.py, `per_building` and the building criterion)

`per_building` calls `filter_tickets(room.tickets, args)` **without** an
exclude list (unlike `per_room`, which passes `["building"]`), so a
building criterion in the bundle is applied as-is: every building other
than the named one is credited 0, not the count of its tickets matching
the remaining criteria.  (The CLI layer forbids combining a building
filter with a perbuilding query, so the code never excludes it.) -/

/-- Ticket of building 0, room 10. -/
def ticketC2A : Ticket :=
  ⟨1, none, ⟨0, 10⟩, 0, 0, 0, none, none, [], none⟩

/-- Ticket of building 1, room 11. -/
def ticketC2B : Ticket :=
  ⟨2, none, ⟨1, 11⟩, 0, 0, 0, none, none, [], none⟩

/-- Room of building 1 holding `ticketC2B`. -/
def roomC2B : Room :=
  ⟨11, 1, "1", [ticketC2B]⟩

/-- Organization with two buildings, one ticket each. -/
def orgC2 : Org :=
  { Org.init with
    buildings := [("A", ⟨0, "A", [("1", ⟨10, 0, "1", [ticketC2A]⟩)]⟩),
                  ("B", ⟨1, "B", [("1", roomC2B)]⟩)] }

/-- Criteria bundle naming building 0. -/
def argsC2 : Args :=
  { Args.empty with building := some 0 }

/-- C2 counterexample: with the building criterion naming building 0,
building 1 has exactly one ticket matching the remaining (empty)
criteria — `filter_tickets` with the building criterion excluded returns
it — yet `per_building` credits building 1 with 0, because it does not
suppress the building criterion. -/
theorem c2_counterexample :
    per_building orgC2 argsC2 = .ok ([(0, 1), (1, 0)], argsC2) ∧
    filter_tickets roomC2B.tickets argsC2 ["building"] = .ok ([ticketC2B], argsC2) ∧
    alookup [((0 : Nat), (1 : Nat)), (1, 0)] 1 = some 0 ∧ (0 : Nat) ≠ 1 :=
  ⟨rfl, rfl, rfl, by decide⟩

/-- A building-criterion mismatch screens out every ticket before any
other check runs, so the loop returns the accumulator unchanged. -/
theorem filterLoop_building_mismatch (ts te : Option DT) (b : Nat)
    (rq : Option (List Nat)) (tickets : List Ticket) :
    ∀ (a : Args) (acc : List Ticket),
      (∀ tk ∈ tickets, tk.room.building ≠ b) →
      filterLoop ts te (some b) rq tickets a acc = .ok (acc, a) := by
  induction tickets with
  | nil => intro a acc _; rfl
  | cons t rest ih =>
    intro a acc h
    have hne : t.room.building ≠ b := h t (List.mem_cons_self t rest)
    have hrest : ∀ tk ∈ rest, tk.room.building ≠ b :=
      fun x hx => h x (List.mem_cons_of_mem t hx)
    simp only [filterLoop]
    rw [if_pos (by simp [bne_iff_ne, hne])]
    exact ih a acc hrest

/-- `filter_tickets` under a mismatching building criterion returns the
empty list and does not touch the bundle. -/
theorem filter_tickets_building_mismatch (tickets : List Ticket) (args : Args) (b : Nat)
    (hb : args.building = some b) (h : ∀ tk ∈ tickets, tk.room.building ≠ b) :
    filter_tickets tickets args [] = .ok ([], args) := by
  unfold filter_tickets
  simp only [List.contains, List.elem, hb]
  exact filterLoop_building_mismatch _ _ b _ tickets args [] h

/-- The room loop of `per_building` leaves the count unchanged when the
building criterion rejects every ticket of every room. -/
theorem perBuildingRooms_mismatch (b : Nat) (rooms : List (String × Room)) :
    ∀ (args : Args) (c : Nat),
      args.building = some b →
      (∀ q ∈ rooms, ∀ tk ∈ q.2.tickets, tk.room.building ≠ b) →
      perBuildingRooms rooms args c = .ok (c, args) := by
  induction rooms with
  | nil => intro args c _ _; rfl
  | cons q rest ih =>
    intro args c hb h
    have hq : ∀ tk ∈ q.2.tickets, tk.room.building ≠ b :=
      h q (List.mem_cons_self q rest)
    have hrest : ∀ x ∈ rest, ∀ tk ∈ x.2.tickets, tk.room.building ≠ b :=
      fun x hx => h x (List.mem_cons_of_mem q hx)
    obtain ⟨qn, qr⟩ := q
    simp only [perBuildingRooms]
    rw [filter_tickets_building_mismatch qr.tickets args b hb hq]
    simpa using ih args c hb hrest

/-- The room loop of `per_building` preserves the bundle simulation. -/
theorem perBuildingRooms_argsSim (a0 : Args) (rooms : List (String × Room)) :
    ∀ (a : Args) (c : Nat) (cr : Nat × Args),
      ArgsSim a0 a → perBuildingRooms rooms a c = .ok cr → ArgsSim a0 cr.2 := by
  induction rooms with
  | nil =>
    intro a c cr hsim h
    simp only [perBuildingRooms, Except.ok.injEq] at h
    rw [← h]
    exact hsim
  | cons q rest ih =>
    intro a c cr hsim h
    obtain ⟨qn, qr⟩ := q
    simp only [perBuildingRooms] at h
    cases hrun : filter_tickets qr.tickets a [] with
    | error e => rw [hrun] at h; cases h
    | ok fr =>
      rw [hrun] at h
      unfold filter_tickets at hrun
      have hsim2 : ArgsSim a0 fr.2 := by
        obtain ⟨o, a2⟩ := fr
        exact filterLoop_argsSim _ _ _ _ a0 qr.tickets a [] o a2 hsim hrun
      exact ih fr.2 (c + fr.1.length) cr hsim2 h

/-- Shape of the `per_building` outer loop: it appends one `(uid, count)`
entry per building, in order, and any per-building property `P`
established by the room loop (under the bundle simulation) holds of each
entry. -/
theorem perBuildingLoop_spec (P : Building → Nat → Prop) (a0 : Args)
    (bs : List (String × Building)) :
    ∀ (args : Args) (acc m : List (Nat × Nat)) (args1 : Args),
      ArgsSim a0 args →
      (∀ p ∈ bs, ∀ (a : Args) (cr : Nat × Args),
        ArgsSim a0 a → perBuildingRooms p.2.rooms a 0 = .ok cr → P p.2 cr.1) →
      perBuildingLoop bs args acc = .ok (m, args1) →
      ∃ rest, m = acc ++ rest ∧
        List.Forall₂ (fun (p : String × Building) (e : Nat × Nat) =>
          e.1 = p.2.uid ∧ P p.2 e.2) bs rest := by
  induction bs with
  | nil =>
    intro args acc m args1 _ _ h
    simp only [perBuildingLoop, Except.ok.injEq, Prod.mk.injEq] at h
    exact ⟨[], by simp [← h.1], List.Forall₂.nil⟩
  | cons p rest ih =>
    intro args acc m args1 hsim hP h
    obtain ⟨pn, pb⟩ := p
    simp only [perBuildingLoop] at h
    cases hrun : perBuildingRooms pb.rooms args 0 with
    | error e => rw [hrun] at h; cases h
    | ok cr =>
      rw [hrun] at h
      have hsim2 : ArgsSim a0 cr.2 :=
        perBuildingRooms_argsSim a0 pb.rooms args 0 cr hsim hrun
      obtain ⟨tail, htail, hfa⟩ := ih cr.2 (acc ++ [(pb.uid, cr.1)]) m args1 hsim2
        (fun x hx => hP x (List.mem_cons_of_mem _ hx)) h
      refine ⟨(pb.uid, cr.1) :: tail, by simp [htail], ?_⟩
      exact List.Forall₂.cons
        ⟨rfl, hP (pn, pb) (List.mem_cons_self _ rest) args cr hsim hrun⟩ hfa

/-- Entry keys of a `Forall₂`-related count list. -/
theorem forall2_keys (P : Building → Nat → Prop) :
    ∀ (bs : List (String × Building)) (rest : List (Nat × Nat)),
      List.Forall₂ (fun (p : String × Building) (e : Nat × Nat) =>
        e.1 = p.2.uid ∧ P p.2 e.2) bs rest →
      rest.map Prod.fst = bs.map (fun p => p.2.uid) := by
  intro bs rest h
  induction h with
  | nil => rfl
  | cons hrel _ ih =>
    simp only [List.map_cons, ih, hrel.1]

/-- C2 amended: `per_building` produces exactly one entry per known
building, in registry order (zero-count buildings included); and it does
**not** suppress the building criterion: when the bundle names building
`b` and every room only holds tickets of its own building, every
building other than `b` is credited 0. -/
theorem c2_per_building_keys_and_criterion :
    (∀ (org : Org) (args : Args) (m : List (Nat × Nat)) (args1 : Args),
      per_building org args = .ok (m, args1) →
      m.map Prod.fst = org.buildings.map (fun p => p.2.uid)) ∧
    (∀ (org : Org) (args : Args) (b : Nat) (m : List (Nat × Nat)) (args1 : Args),
      args.building = some b →
      (∀ p ∈ org.buildings, ∀ q ∈ p.2.rooms, ∀ tk ∈ q.2.tickets,
        tk.room.building = p.2.uid) →
      per_building org args = .ok (m, args1) →
      List.Forall₂ (fun (p : String × Building) (e : Nat × Nat) =>
        e.1 = p.2.uid ∧ (p.2.uid ≠ b → e.2 = 0)) org.buildings m) := by
  constructor
  · intro org args m args1 h
    obtain ⟨rest, hrest, hfa⟩ :=
      perBuildingLoop_spec (fun _ _ => True) args org.buildings args [] m args1
        (argsSim_refl args) (fun _ _ _ _ _ _ => trivial) h
    rw [hrest]
    simpa using forall2_keys (fun _ _ => True) org.buildings rest hfa
  · intro org args b m args1 hb hown h
    have hP : ∀ p ∈ org.buildings, ∀ (a : Args) (cr : Nat × Args),
        ArgsSim args a → perBuildingRooms p.2.rooms a 0 = .ok cr →
        (p.2.uid ≠ b → cr.1 = 0) := by
      intro p hp a cr hsim hrun hne
      have hab : a.building = some b := by
        obtain ⟨-, -, h3, -⟩ := hsim
        rw [h3, hb]
      have hq : ∀ q ∈ p.2.rooms, ∀ tk ∈ q.2.tickets, tk.room.building ≠ b := by
        intro q hq tk htk
        rw [hown p hp q hq tk htk]
        exact hne
      have hmz := perBuildingRooms_mismatch b p.2.rooms a 0 hab hq
      rw [hmz] at hrun
      cases hrun
      rfl
    obtain ⟨rest, hrest, hfa⟩ :=
      perBuildingLoop_spec (fun bd c => bd.uid ≠ b → c = 0) args org.buildings args [] m args1
        (argsSim_refl args) (fun p hp a cr hsim hrun => hP p hp a cr hsim hrun) h
    rw [hrest]
    simpa using hfa

/-- C2 witness: the amended statement applied to the two-building
organization of the counterexample. -/
theorem c2_per_building_keys_and_criterion_witness :
    ([((0 : Nat), (1 : Nat)), (1, 0)].map Prod.fst =
      orgC2.buildings.map (fun p => p.2.uid)) ∧
    List.Forall₂ (fun (p : String × Building) (e : Nat × Nat) =>
      e.1 = p.2.uid ∧ (p.2.uid ≠ 0 → e.2 = 0)) orgC2.buildings [(0, 1), (1, 0)] :=
  ⟨c2_per_building_keys_and_criterion.1 orgC2 argsC2 [(0, 1), (1, 0)] argsC2 rfl,
   c2_per_building_keys_and_criterion.2 orgC2 argsC2 0 [(0, 1), (1, 0)] argsC2 rfl
     (by decide) rfl⟩

/-! ## Claim C10 (organization.py, duplicate ticket id in `add_new_ticket`) -/

/-- `alookup` finds only entries of the list. -/
theorem alookup_mem {κ α : Type} [DecidableEq κ] (l : List (κ × α)) (k : κ) (v : α)
    (h : alookup l k = some v) : (k, v) ∈ l := by
  induction l with
  | nil => cases h
  | cons p rest ih =>
    obtain ⟨pk, pv⟩ := p
    simp only [alookup] at h
    by_cases hp : pk = k
    · rw [if_pos hp] at h
      injection h with h
      subst hp
      subst h
      exact List.mem_cons_self _ _
    · rw [if_neg hp] at h
      exact List.mem_cons_of_mem _ (ih h)

/-- A key that `alookup` misses occurs nowhere in the list. -/
theorem alookup_none_forall {κ α : Type} [DecidableEq κ] (l : List (κ × α)) (k : κ)
    (h : alookup l k = none) : ∀ p ∈ l, p.1 ≠ k := by
  induction l with
  | nil => intro p hp; cases hp
  | cons q rest ih =>
    obtain ⟨qk, qv⟩ := q
    simp only [alookup] at h
    by_cases hq : qk = k
    · rw [if_pos hq] at h; cases h
    · rw [if_neg hq] at h
      intro p hp
      rcases List.mem_cons.mp hp with rfl | hp
      · exact hq
      · exact ih h p hp

/-- Replacing the value at every occurrence of a present key makes the
new value visible at that key. -/
theorem alookup_map_replace {κ α : Type} [DecidableEq κ] (l : List (κ × α)) (k : κ)
    (v w : α) (h : alookup l k = some w) :
    alookup (l.map fun p => if p.1 = k then (k, v) else p) k = some v := by
  induction l with
  | nil => cases h
  | cons p rest ih =>
    obtain ⟨pk, pv⟩ := p
    simp only [alookup] at h
    simp only [List.map_cons]
    dsimp only
    by_cases hp : pk = k
    · rw [if_pos hp]
      simp [alookup]
    · rw [if_neg hp] at h ⊢
      simp only [alookup]
      rw [if_neg hp]
      exact ih h

/-- `aset` makes the assigned value visible at the assigned key. -/
theorem aset_alookup {κ α : Type} [DecidableEq κ] (l : List (κ × α)) (k : κ) (v : α) :
    alookup (aset l k v) k = some v := by
  unfold aset
  cases hx : alookup l k with
  | none => exact alookup_append_missing l k v hx
  | some w => exact alookup_map_replace l k v w hx

/-- Every entry of `aset l k v` is the assigned entry or an untouched
entry under a different key. -/
theorem aset_mem {κ α : Type} [DecidableEq κ] (l : List (κ × α)) (k : κ) (v : α)
    (p : κ × α) (h : p ∈ aset l k v) : p = (k, v) ∨ (p ∈ l ∧ p.1 ≠ k) := by
  unfold aset at h
  cases hx : alookup l k with
  | none =>
    rw [hx] at h
    rcases List.mem_append.mp h with h | h
    · exact Or.inr ⟨h, alookup_none_forall l k hx p h⟩
    · rcases List.mem_singleton.mp h with rfl
      exact Or.inl rfl
  | some w =>
    rw [hx] at h
    rcases List.mem_map.mp h with ⟨q, hq, rfl⟩
    by_cases hqk : q.1 = k
    · rw [if_pos hqk]
      exact Or.inl rfl
    · rw [if_neg hqk]
      exact Or.inr ⟨hq, hqk⟩

/-- The ticket is reachable from some room back-reference list. -/
def roomTicketMem (org : Org) (t : Ticket) : Prop :=
  ∃ p ∈ org.buildings, ∃ q ∈ p.2.rooms, t ∈ q.2.tickets

/-- The ticket is reachable from some user back-reference list. -/
def userTicketMem (org : Org) (t : Ticket) : Prop :=
  ∃ p ∈ org.users, ∃ u ∈ p.2, t ∈ u.tickets

/-- The ticket is reachable from some group back-reference list. -/
def groupTicketMem (org : Org) (t : Ticket) : Prop :=
  ∃ p ∈ org.groups, t ∈ p.2.tickets

/-- The ticket is reachable from some department back-reference list. -/
def deptTicketMem (org : Org) (t : Ticket) : Prop :=
  ∃ p ∈ org.departments, t ∈ p.2.tickets

/-- C10: adding a ticket whose id is already present replaces the entry
in the tickets table (the table afterwards reaches only the newer
ticket), while the older ticket remains in the room, requestor, group
and department back-reference lists it was appended to. -/
theorem c10_duplicate_id_stale_backrefs (org : Org) (t_old t_new : Ticket)
    (hlk : alookup org.tickets t_new.id = some t_old)
    (hne : t_old ≠ t_new)
    (hkeys : ∀ p ∈ org.tickets, p.2.id = p.1) :
    alookup (add_new_ticket org t_new).tickets t_new.id = some t_new ∧
    (∀ p ∈ (add_new_ticket org t_new).tickets, p.2 ≠ t_old) ∧
    (roomTicketMem org t_old → roomTicketMem (add_new_ticket org t_new) t_old) ∧
    (userTicketMem org t_old → userTicketMem (add_new_ticket org t_new) t_old) ∧
    (groupTicketMem org t_old → groupTicketMem (add_new_ticket org t_new) t_old) ∧
    (deptTicketMem org t_old → deptTicketMem (add_new_ticket org t_new) t_old) := by
  have hid : t_old.id = t_new.id := hkeys (t_new.id, t_old) (alookup_mem _ _ _ hlk)
  refine ⟨?_, ?_, ?_, ?_, ?_, ?_⟩
  · exact aset_alookup org.tickets t_new.id t_new
  · intro p hp
    rcases aset_mem org.tickets t_new.id t_new p hp with rfl | ⟨hmem, hkey⟩
    · exact fun hc => hne hc.symm
    · intro hc
      apply hkey
      rw [← hkeys p hmem, hc, hid]
  · rintro ⟨p, hp, q, hq, ht⟩
    refine ⟨(p.1, { p.2 with rooms := p.2.rooms.map fun r =>
        (r.1, if r.2.uid = t_new.room.uid then
          { r.2 with tickets := r.2.tickets ++ [t_new] } else r.2) }), ?_, ?_⟩
    · exact List.mem_map.mpr ⟨p, hp, rfl⟩
    · refine ⟨(q.1, if q.2.uid = t_new.room.uid then
        { q.2 with tickets := q.2.tickets ++ [t_new] } else q.2), ?_, ?_⟩
      · exact List.mem_map.mpr ⟨q, hq, rfl⟩
      · by_cases hu : q.2.uid = t_new.room.uid
        · rw [if_pos hu]
          exact List.mem_append_left _ ht
        · rw [if_neg hu]
          exact ht
  · rintro ⟨p, hp, u, hu, ht⟩
    refine ⟨(p.1, p.2.map fun x => if x.uid = t_new.requestor then
        { x with tickets := x.tickets ++ [t_new] } else x), ?_, ?_⟩
    · exact List.mem_map.mpr ⟨p, hp, rfl⟩
    · refine ⟨if u.uid = t_new.requestor then
        { u with tickets := u.tickets ++ [t_new] } else u, List.mem_map.mpr ⟨u, hu, rfl⟩, ?_⟩
      by_cases hx : u.uid = t_new.requestor
      · rw [if_pos hx]
        exact List.mem_append_left _ ht
      · rw [if_neg hx]
        exact ht
  · rintro ⟨p, hp, ht⟩
    refine ⟨(p.1, if p.2.uid = t_new.responsible_group then
        { p.2 with tickets := p.2.tickets ++ [t_new] } else p.2),
      List.mem_map.mpr ⟨p, hp, rfl⟩, ?_⟩
    by_cases hx : p.2.uid = t_new.responsible_group
    · rw [if_pos hx]
      exact List.mem_append_left _ ht
    · rw [if_neg hx]
      exact ht
  · rintro ⟨p, hp, ht⟩
    refine ⟨(p.1, if p.2.uid = t_new.department then
        { p.2 with tickets := p.2.tickets ++ [t_new] } else p.2),
      List.mem_map.mpr ⟨p, hp, rfl⟩, ?_⟩
    by_cases hx : p.2.uid = t_new.department
    · rw [if_pos hx]
      exact List.mem_append_left _ ht
    · rw [if_neg hx]
      exact ht

/-- Older ticket with id 5. -/
def tOld : Ticket := ⟨5, some "old", ⟨0, 1⟩, 2, 3, 4, none, none, [], none⟩

/-- Newer ticket with the same id 5. -/
def tNew : Ticket := ⟨5, some "new", ⟨0, 1⟩, 2, 3, 4, none, none, [], none⟩

/-- Organization holding `tOld` in its table and all back-reference
lists. -/
def orgC10 : Org :=
  ⟨6, [("B", ⟨0, "B", [("1", ⟨1, 0, "1", [tOld]⟩)]⟩)],
   [("u", [⟨2, "u", "n", "p", [tOld]⟩])],
   [("D", ⟨4, "D", [tOld]⟩)],
   [("G", ⟨3, "G", [tOld]⟩)],
   [(5, tOld)]⟩

/-- C10 witness: after replacing id 5, the table reaches only `tNew`
while `tOld` is still reachable from all four back-reference lists. -/
theorem c10_duplicate_id_stale_backrefs_witness :
    alookup (add_new_ticket orgC10 tNew).tickets tNew.id = some tNew ∧
    roomTicketMem (add_new_ticket orgC10 tNew) tOld ∧
    userTicketMem (add_new_ticket orgC10 tNew) tOld ∧
    groupTicketMem (add_new_ticket orgC10 tNew) tOld ∧
    deptTicketMem (add_new_ticket orgC10 tNew) tOld := by
  have h := c10_duplicate_id_stale_backrefs orgC10 tOld tNew rfl (by decide) (by decide)
  refine ⟨h.1, h.2.2.1 ?_, h.2.2.2.1 ?_, h.2.2.2.2.1 ?_, h.2.2.2.2.2 ?_⟩
  · unfold roomTicketMem
    decide
  · unfold userTicketMem
    decide
  · unfold groupTicketMem
    decide
  · unfold deptTicketMem
    decide

/-! ## Claim C7 (organization.py, find-or-create convergence)

The convergence property holds for the name-keyed registries and for
user keys with at least one identity component.  It fails for the user
registry at the all-absent key: `find_user(None, None, None,
create_mode=True)` skips both lookups (no email, no name, no phone), so
every such call creates and registers a **new** user — the registry
grows and the returned instance differs from the previous one.  (The
unit tests exercise exactly this double-creation behavior.) -/

/-- The first all-`None` create call: one fresh `Undefined` user. -/
def userC7a : User := ⟨0, "Undefined", "Undefined", "Undefined", []⟩

/-- The second all-`None` create call: another fresh `Undefined` user. -/
def userC7b : User := ⟨1, "Undefined", "Undefined", "Undefined", []⟩

/-- C7 counterexample: two successive `create_mode` lookups with the
same all-absent key both create; the second returns a different
instance, and the user registry grows from one to two entries. -/
theorem c7_counterexample :
    (find_user Org.init none none none true).1 = [userC7a] ∧
    (find_user (find_user Org.init none none none true).2 none none none true).1 =
      [userC7b] ∧
    userC7b ≠ userC7a ∧
    ((find_user (find_user Org.init none none none true).2 none none none
      true).2.users.map fun p => p.2.length).sum = 2 := by
  refine ⟨rfl, rfl, by decide, rfl⟩

/-- `orUndefined` never yields the empty string. -/
theorem orUndefined_ne_empty (o : Option String) : orUndefined o ≠ "" := by
  unfold orUndefined
  by_cases h : strTruthy o = true
  · rw [if_pos h]
    cases o with
    | none => simp [strTruthy] at h
    | some s => simpa [strTruthy] using h
  · rw [if_neg h]
    decide

/-- `orUndefined` of a present non-empty string is that string. -/
theorem orUndefined_some_of_ne (s : String) (h : s ≠ "") :
    orUndefined (some s) = s := by
  simp [orUndefined, strTruthy, h]

/-- `orUndefined` is idempotent through `some`. -/
theorem orUndefined_norm (o : Option String) :
    orUndefined (some (orUndefined o)) = orUndefined o :=
  orUndefined_some_of_ne _ (orUndefined_ne_empty o)

/-- Replacement mapping is the identity when the key is absent. -/
theorem map_replace_id {κ α : Type} [DecidableEq κ] (l : List (κ × α)) (k : κ) (v : α)
    (h : ∀ p ∈ l, p.1 ≠ k) :
    (l.map fun p => if p.1 = k then (k, v) else p) = l := by
  induction l with
  | nil => rfl
  | cons p rest ih =>
    simp only [List.map_cons]
    rw [if_neg (h p (List.mem_cons_self p rest))]
    rw [ih fun q hq => h q (List.mem_cons_of_mem p hq)]

/-- On a registry with unique keys, `aset` at a present key replaces
exactly that entry. -/
theorem aset_decomp {κ α : Type} [DecidableEq κ] (l : List (κ × α)) (k : κ) (v w : α)
    (hnd : (l.map Prod.fst).Nodup) (hlk : alookup l k = some w) :
    ∃ l1 l2, l = l1 ++ (k, w) :: l2 ∧ aset l k v = l1 ++ (k, v) :: l2 := by
  induction l with
  | nil => cases hlk
  | cons p rest ih =>
    obtain ⟨pk, pv⟩ := p
    simp only [List.map_cons, List.nodup_cons] at hnd
    simp only [alookup] at hlk
    by_cases hp : pk = k
    · subst hp
      rw [if_pos rfl] at hlk
      injection hlk with hlk
      refine ⟨[], rest, by rw [hlk]; rfl, ?_⟩
      unfold aset
      rw [show alookup ((pk, pv) :: rest) pk = some pv by simp [alookup]]
      simp only [List.map_cons, if_true]
      rw [map_replace_id rest pk v]
      · rfl
      · intro q hq hqk
        exact hnd.1 (hqk ▸ List.mem_map_of_mem Prod.fst hq)
    · rw [if_neg hp] at hlk
      obtain ⟨l1, l2, hsplit, hset⟩ := ih hnd.2 hlk
      refine ⟨(pk, pv) :: l1, l2, by rw [hsplit]; rfl, ?_⟩
      unfold aset at hset ⊢
      rw [hlk] at hset
      dsimp only at hset
      rw [show alookup ((pk, pv) :: rest) k = some w by simp [alookup, if_neg hp, hlk]]
      dsimp only
      simp only [List.map_cons]
      dsimp only
      rw [if_neg hp, hset]
      rfl

/-- First-create/subsequent-lookup behavior of `find_building`. -/
theorem find_building_create_spec (org : Org) (name : Option String)
    (h : alookup org.buildings (orUndefined name) = none) :
    ∃ b org1, find_building org name true = (some b, org1) ∧
      org1.buildings = org.buildings ++ [(orUndefined name, b)] ∧
      ∀ cm, find_building org1 name cm = (some b, org1) := by
  refine ⟨⟨org.nextUid, orUndefined name, []⟩,
    { org with
      buildings := org.buildings ++
        [(orUndefined name, ⟨org.nextUid, orUndefined name, []⟩)],
      nextUid := org.nextUid + 1 }, ?_, rfl, ?_⟩
  · unfold find_building
    dsimp only
    rw [h]
    rfl
  · intro cm
    unfold find_building
    dsimp only
    rw [alookup_append_missing org.buildings (orUndefined name) _ h]

/-- First-create/subsequent-lookup behavior of `find_group`. -/
theorem find_group_create_spec (org : Org) (name : Option String)
    (h : alookup org.groups (orUndefined name) = none) :
    ∃ g org1, find_group org name true = (some g, org1) ∧
      org1.groups = org.groups ++ [(orUndefined name, g)] ∧
      ∀ cm, find_group org1 name cm = (some g, org1) := by
  refine ⟨⟨org.nextUid, orUndefined name, []⟩,
    { org with
      groups := org.groups ++ [(orUndefined name, ⟨org.nextUid, orUndefined name, []⟩)],
      nextUid := org.nextUid + 1 }, ?_, rfl, ?_⟩
  · unfold find_group
    dsimp only
    rw [h]
    rfl
  · intro cm
    unfold find_group
    dsimp only
    rw [alookup_append_missing org.groups (orUndefined name) _ h]

/-- First-create/subsequent-lookup behavior of `find_department`. -/
theorem find_department_create_spec (org : Org) (name : Option String)
    (h : alookup org.departments (orUndefined name) = none) :
    ∃ d org1, find_department org name true = (some d, org1) ∧
      org1.departments = org.departments ++ [(orUndefined name, d)] ∧
      ∀ cm, find_department org1 name cm = (some d, org1) := by
  refine ⟨⟨org.nextUid, orUndefined name, []⟩,
    { org with
      departments := org.departments ++
        [(orUndefined name, ⟨org.nextUid, orUndefined name, []⟩)],
      nextUid := org.nextUid + 1 }, ?_, rfl, ?_⟩
  · unfold find_department
    dsimp only
    rw [h]
    rfl
  · intro cm
    unfold find_department
    dsimp only
    rw [alookup_append_missing org.departments (orUndefined name) _ h]

/-- `aset` on a freshly appended key rewrites exactly that entry. -/
theorem aset_append_fresh {κ α : Type} [DecidableEq κ] (l : List (κ × α)) (k : κ) (w v : α)
    (h : alookup l k = none) : aset (l ++ [(k, w)]) k v = l ++ [(k, v)] := by
  unfold aset
  rw [alookup_append_missing l k w h]
  rw [List.map_append]
  rw [map_replace_id l k v (alookup_none_forall l k h)]
  simp

/-- Total number of registered rooms. -/
def roomCount (org : Org) : Nat :=
  (org.buildings.map fun p => p.2.rooms.length).sum

/-- First-create/subsequent-lookup behavior of `find_room` (possibly
creating the building transitively). -/
theorem find_room_create_spec (org : Org) (bn rn : Option String)
    (hnd : (org.buildings.map Prod.fst).Nodup)
    (hmiss : find_room org bn rn false = (none, org)) :
    ∃ r org1, find_room org bn rn true = (some r, org1) ∧
      (∀ cm, find_room org1 bn rn cm = (some r, org1)) ∧
      roomCount org1 = roomCount org + 1 := by
  cases halb : alookup org.buildings (orUndefined bn) with
  | none =>
    -- neither the building nor the room exists: both are created
    have hb : find_building org (some (orUndefined bn)) true =
        (some ⟨org.nextUid, orUndefined bn, []⟩,
         { org with
           buildings := org.buildings ++
             [(orUndefined bn, ⟨org.nextUid, orUndefined bn, []⟩)],
           nextUid := org.nextUid + 1 }) := by
      unfold find_building
      dsimp only
      rw [orUndefined_norm, halb]
      rfl
    refine ⟨⟨org.nextUid + 1, org.nextUid, orUndefined rn, []⟩,
      { org with
        buildings := org.buildings ++
          [(orUndefined bn, ⟨org.nextUid, orUndefined bn,
            [(orUndefined rn, ⟨org.nextUid + 1, org.nextUid, orUndefined rn, []⟩)]⟩)],
        nextUid := org.nextUid + 2 }, ?_, ?_, ?_⟩
    · unfold find_room
      dsimp only
      rw [hb]
      dsimp only
      rw [show alookup ([] : List (String × Room)) (orUndefined rn) = none from rfl]
      dsimp only
      rw [aset_append_fresh org.buildings (orUndefined bn) _ _ halb]
      rfl
    · intro cm
      have hb1 : find_building
          { org with
            buildings := org.buildings ++
              [(orUndefined bn, ⟨org.nextUid, orUndefined bn,
                [(orUndefined rn, ⟨org.nextUid + 1, org.nextUid, orUndefined rn, []⟩)]⟩)],
            nextUid := org.nextUid + 2 } (some (orUndefined bn)) cm =
          (some ⟨org.nextUid, orUndefined bn,
            [(orUndefined rn, ⟨org.nextUid + 1, org.nextUid, orUndefined rn, []⟩)]⟩,
           { org with
             buildings := org.buildings ++
               [(orUndefined bn, ⟨org.nextUid, orUndefined bn,
                 [(orUndefined rn, ⟨org.nextUid + 1, org.nextUid, orUndefined rn, []⟩)]⟩)],
             nextUid := org.nextUid + 2 }) := by
        unfold find_building
        dsimp only
        rw [orUndefined_norm,
          alookup_append_missing org.buildings (orUndefined bn) _ halb]
      unfold find_room
      dsimp only
      rw [hb1]
      dsimp only
      rw [show alookup [(orUndefined rn,
        (⟨org.nextUid + 1, org.nextUid, orUndefined rn, []⟩ : Room))] (orUndefined rn) =
        some ⟨org.nextUid + 1, org.nextUid, orUndefined rn, []⟩ by simp [alookup]]
    · unfold roomCount
      simp
  | some b =>
    -- the building exists; the room does not (from the failed lookup)
    have hb : ∀ cm, find_building org (some (orUndefined bn)) cm = (some b, org) := by
      intro cm
      unfold find_building
      dsimp only
      rw [orUndefined_norm, halb]
    have hrn : alookup b.rooms (orUndefined rn) = none := by
      cases hrr : alookup b.rooms (orUndefined rn) with
      | none => rfl
      | some r =>
        exfalso
        unfold find_room at hmiss
        dsimp only at hmiss
        rw [hb false] at hmiss
        dsimp only at hmiss
        rw [hrr] at hmiss
        cases hmiss
    refine ⟨⟨org.nextUid, b.uid, orUndefined rn, []⟩,
      { org with
        buildings := aset org.buildings (orUndefined bn)
          { b with rooms := b.rooms ++
            [(orUndefined rn, ⟨org.nextUid, b.uid, orUndefined rn, []⟩)] },
        nextUid := org.nextUid + 1 }, ?_, ?_, ?_⟩
    · unfold find_room
      dsimp only
      rw [hb true]
      dsimp only
      rw [hrn]
      rfl
    · intro cm
      have hb1 : find_building
          { org with
            buildings := aset org.buildings (orUndefined bn)
              { b with rooms := b.rooms ++
                [(orUndefined rn, ⟨org.nextUid, b.uid, orUndefined rn, []⟩)] },
            nextUid := org.nextUid + 1 } (some (orUndefined bn)) cm =
          (some { b with rooms := b.rooms ++
            [(orUndefined rn, ⟨org.nextUid, b.uid, orUndefined rn, []⟩)] },
           { org with
             buildings := aset org.buildings (orUndefined bn)
               { b with rooms := b.rooms ++
                 [(orUndefined rn, ⟨org.nextUid, b.uid, orUndefined rn, []⟩)] },
             nextUid := org.nextUid + 1 }) := by
        unfold find_building
        dsimp only
        rw [orUndefined_norm, aset_alookup]
      unfold find_room
      dsimp only
      rw [hb1]
      dsimp only
      rw [alookup_append_missing b.rooms (orUndefined rn) _ hrn]
    · obtain ⟨l1, l2, hsplit, hset⟩ := aset_decomp org.buildings (orUndefined bn)
        { b with rooms := b.rooms ++
          [(orUndefined rn, ⟨org.nextUid, b.uid, orUndefined rn, []⟩)] } b hnd halb
      unfold roomCount
      rw [hset]
      conv_rhs => rw [hsplit]
      simp [List.map_append, List.sum_append]
      omega

/-- Total number of registered users. -/
def userCount (org : Org) : Nat :=
  ((org.users.map Prod.snd).flatten).length

/-- An identity component filter always accepts the value that was used
to create the user (`orUndefined` of the component). -/
theorem opt_match_orUndefined (o : Option String) :
    (!(strTruthy o) || o == some (orUndefined o)) = true := by
  cases ht : strTruthy o
  · simp
  · cases o with
    | none => simp [strTruthy] at ht
    | some s =>
      have hs : s ≠ "" := by simpa [strTruthy] using ht
      rw [orUndefined_some_of_ne s hs]
      simp

/-- A freshly created user matches the lookup filters that created it. -/
theorem userMatch_orUndefined (name phone : Option String) (uid : Nat) (e : String) :
    userMatch name phone ⟨uid, e, orUndefined name, orUndefined phone, []⟩ = true := by
  unfold userMatch
  dsimp only
  rw [opt_match_orUndefined name, opt_match_orUndefined phone]
  rfl

/-- Run of `find_user` when the initial guard passes: lookup, then
return-if-found, then create-if-allowed. -/
theorem find_user_eq (org : Org) (email name phone : Option String) (cm : Bool)
    (hg : (strTruthy email || strTruthy name || strTruthy phone || cm) = true) :
    find_user org email name phone cm =
      (if !(if strTruthy email then email_lookup org.users (email.getD "") name phone
            else if strTruthy name || strTruthy phone then
              name_phone_lookup org.users name phone
            else []).isEmpty then
        ((if strTruthy email then email_lookup org.users (email.getD "") name phone
          else if strTruthy name || strTruthy phone then
            name_phone_lookup org.users name phone
          else []), org)
       else if cm then
        ([⟨org.nextUid, orUndefined email, orUndefined name, orUndefined phone, []⟩],
         { org with
           users :=
             match alookup org.users (orUndefined email) with
             | some l => aset org.users (orUndefined email)
                 (l ++ [⟨org.nextUid, orUndefined email, orUndefined name,
                   orUndefined phone, []⟩])
             | none => org.users ++ [(orUndefined email,
                 [⟨org.nextUid, orUndefined email, orUndefined name,
                   orUndefined phone, []⟩])],
           nextUid := org.nextUid + 1 })
       else ([], org)) := by
  unfold find_user
  rw [show (!(strTruthy email || strTruthy name || strTruthy phone || cm)) = false by
    rw [hg]; rfl]
  rfl

/-- An appended-singleton list is never empty. -/
theorem isEmpty_append_singleton {α : Type} (l : List α) (x : α) :
    (l ++ [x]).isEmpty = false := by
  cases l <;> rfl

/-- First-create/subsequent-lookup behavior of `find_user`, for keys
with at least one identity component. -/
theorem find_user_create_spec (org : Org) (email name phone : Option String)
    (htr : (strTruthy email || strTruthy name || strTruthy phone) = true)
    (hnd : (org.users.map Prod.fst).Nodup)
    (hmiss : find_user org email name phone false = ([], org)) :
    ∃ u org1, find_user org email name phone true = ([u], org1) ∧
      (∀ cm, find_user org1 email name phone cm = ([u], org1)) ∧
      userCount org1 = userCount org + 1 := by
  have hg : ∀ c : Bool, (strTruthy email || strTruthy name || strTruthy phone || c) = true := by
    intro c
    cases he : strTruthy email <;> cases hn : strTruthy name <;>
      cases hp : strTruthy phone <;> simp_all
  rw [find_user_eq org email name phone false (hg false)] at hmiss
  rw [find_user_eq org email name phone true (hg true)]
  have hL : (if strTruthy email then email_lookup org.users (email.getD "") name phone
             else if strTruthy name || strTruthy phone then
               name_phone_lookup org.users name phone
             else []) = [] := by
    by_cases h : (if strTruthy email then email_lookup org.users (email.getD "") name phone
                  else if strTruthy name || strTruthy phone then
                    name_phone_lookup org.users name phone
                  else []) = []
    · exact h
    · exfalso
      rw [if_pos (by simpa [List.isEmpty_iff] using h)] at hmiss
      exact h (congrArg Prod.fst hmiss)
  rw [hL] at hmiss ⊢
  simp only [List.isEmpty_nil, Bool.not_true, Bool.false_eq_true, if_false, if_pos rfl] at hmiss ⊢
  by_cases hem : strTruthy email = true
  · -- email path
    have hLe : email_lookup org.users (email.getD "") name phone = [] := by
      rw [if_pos hem] at hL
      exact hL
    have hue : orUndefined email = email.getD "" := by
      unfold orUndefined
      rw [if_pos hem]
    cases halu : alookup org.users (email.getD "") with
    | none =>
      refine ⟨⟨org.nextUid, orUndefined email, orUndefined name, orUndefined phone, []⟩,
        { org with
          users := org.users ++ [(email.getD "",
            [⟨org.nextUid, orUndefined email, orUndefined name, orUndefined phone, []⟩])],
          nextUid := org.nextUid + 1 }, ?_, ?_, ?_⟩
      · rw [hue, halu]
        rfl
      · intro cm
        rw [find_user_eq _ email name phone cm (hg cm)]
        have hlook : email_lookup (org.users ++ [(email.getD "",
            [⟨org.nextUid, orUndefined email, orUndefined name, orUndefined phone, []⟩])])
            (email.getD "") name phone =
            [⟨org.nextUid, orUndefined email, orUndefined name, orUndefined phone, []⟩] := by
          unfold email_lookup
          rw [alookup_append_missing _ _ _ halu]
          dsimp only
          rw [show ([⟨org.nextUid, orUndefined email, orUndefined name, orUndefined phone,
            []⟩] : List User).isEmpty = false from rfl]
          simp only [Bool.false_eq_true, if_false]
          by_cases hnp : (strTruthy name || strTruthy phone) = true
          · rw [if_pos hnp]
            simp [List.filter, userMatch_orUndefined]
          · rw [if_neg hnp]
        dsimp only
        rw [if_pos hem, hlook]
        rfl
      · unfold userCount
        simp
    | some l =>
      have hcases : l = [] ∨ ((strTruthy name || strTruthy phone) = true ∧
          l.filter (userMatch name phone) = []) := by
        unfold email_lookup at hLe
        rw [halu] at hLe
        dsimp only at hLe
        by_cases hle : l.isEmpty = true
        · exact Or.inl (List.isEmpty_iff.mp hle)
        · rw [if_neg hle] at hLe
          by_cases hnp : (strTruthy name || strTruthy phone) = true
          · rw [if_pos hnp] at hLe
            exact Or.inr ⟨hnp, hLe⟩
          · rw [if_neg hnp] at hLe
            exact absurd (List.isEmpty_iff.mpr hLe) (by simp [hle])
      have hfl : l.filter (userMatch name phone) = [] := by
        rcases hcases with rfl | ⟨_, h⟩
        · rfl
        · exact h
      refine ⟨⟨org.nextUid, orUndefined email, orUndefined name, orUndefined phone, []⟩,
        { org with
          users := aset org.users (email.getD "")
            (l ++ [⟨org.nextUid, orUndefined email, orUndefined name, orUndefined phone, []⟩]),
          nextUid := org.nextUid + 1 }, ?_, ?_, ?_⟩
      · rw [hue, halu]
        rfl
      · intro cm
        rw [find_user_eq _ email name phone cm (hg cm)]
        have hlook : email_lookup (aset org.users (email.getD "")
            (l ++ [⟨org.nextUid, orUndefined email, orUndefined name, orUndefined phone, []⟩]))
            (email.getD "") name phone =
            [⟨org.nextUid, orUndefined email, orUndefined name, orUndefined phone, []⟩] := by
          unfold email_lookup
          rw [aset_alookup]
          dsimp only
          rw [isEmpty_append_singleton]
          simp only [Bool.false_eq_true, if_false]
          by_cases hnp : (strTruthy name || strTruthy phone) = true
          · rw [if_pos hnp]
            rw [List.filter_append, hfl]
            simp [List.filter, userMatch_orUndefined]
          · rw [if_neg hnp]
            rcases hcases with rfl | ⟨hnp2, _⟩
            · rfl
            · exact absurd hnp2 hnp
        dsimp only
        rw [if_pos hem, hlook]
        rfl
      · obtain ⟨l1, l2, hsplit, hset⟩ := aset_decomp org.users (email.getD "")
          (l ++ [⟨org.nextUid, orUndefined email, orUndefined name, orUndefined phone, []⟩])
          l hnd halu
        unfold userCount
        rw [hset]
        conv_rhs => rw [hsplit]
        simp [List.map_append, List.flatten_append]
        omega
  · -- no email: name and/or phone path
    have hnp : (strTruthy name || strTruthy phone) = true := by
      cases hn : strTruthy name <;> cases hp : strTruthy phone <;> simp_all
    have hLn : name_phone_lookup org.users name phone = [] := by
      rw [if_neg hem, if_pos hnp] at hL
      exact hL
    have hue : orUndefined email = "Undefined" := by
      unfold orUndefined
      rw [if_neg hem]
    have hfmem : ((org.users.map Prod.snd).flatten).filter (userMatch name phone) = [] := hLn
    cases halu : alookup org.users "Undefined" with
    | none =>
      refine ⟨⟨org.nextUid, orUndefined email, orUndefined name, orUndefined phone, []⟩,
        { org with
          users := org.users ++ [("Undefined",
            [⟨org.nextUid, orUndefined email, orUndefined name, orUndefined phone, []⟩])],
          nextUid := org.nextUid + 1 }, ?_, ?_, ?_⟩
      · rw [hue, halu]
        rfl
      · intro cm
        rw [find_user_eq _ email name phone cm (hg cm)]
        have hlook : name_phone_lookup (org.users ++ [("Undefined",
            [⟨org.nextUid, orUndefined email, orUndefined name, orUndefined phone, []⟩])])
            name phone =
            [⟨org.nextUid, orUndefined email, orUndefined name, orUndefined phone, []⟩] := by
          unfold name_phone_lookup
          rw [List.map_append, List.flatten_append, List.filter_append, hfmem]
          simp [List.filter, userMatch_orUndefined]
        dsimp only
        rw [if_neg hem, if_pos hnp, hlook]
        rfl
      · unfold userCount
        simp
    | some l =>
      obtain ⟨l1, l2, hsplit, hset⟩ := aset_decomp org.users "Undefined"
        (l ++ [⟨org.nextUid, orUndefined email, orUndefined name, orUndefined phone, []⟩])
        l hnd halu
      have hflt : ((l1.map Prod.snd).flatten).filter (userMatch name phone) = [] ∧
          l.filter (userMatch name phone) = [] ∧
          ((l2.map Prod.snd).flatten).filter (userMatch name phone) = [] := by
        have := hfmem
        rw [hsplit] at this
        simp only [List.map_append, List.map_cons, List.flatten_append, List.flatten_cons,
          List.filter_append, List.append_eq_nil] at this
        exact ⟨this.1, this.2.1, this.2.2⟩
      refine ⟨⟨org.nextUid, orUndefined email, orUndefined name, orUndefined phone, []⟩,
        { org with
          users := aset org.users "Undefined"
            (l ++ [⟨org.nextUid, orUndefined email, orUndefined name, orUndefined phone, []⟩]),
          nextUid := org.nextUid + 1 }, ?_, ?_, ?_⟩
      · rw [hue, halu]
        rfl
      · intro cm
        rw [find_user_eq _ email name phone cm (hg cm)]
        have hlook : name_phone_lookup (aset org.users "Undefined"
            (l ++ [⟨org.nextUid, orUndefined email, orUndefined name, orUndefined phone, []⟩]))
            name phone =
            [⟨org.nextUid, orUndefined email, orUndefined name, orUndefined phone, []⟩] := by
          unfold name_phone_lookup
          rw [hset]
          simp only [List.map_append, List.map_cons, List.flatten_append, List.flatten_cons,
            List.filter_append, hflt.1, hflt.2.1, hflt.2.2]
          simp [List.filter, userMatch_orUndefined]
        dsimp only
        rw [if_neg hem, if_pos hnp, hlook]
        rfl
      · unfold userCount
        rw [hset]
        conv_rhs => rw [hsplit]
        simp [List.map_append, List.flatten_append]
        omega

/-- `find_building` in create mode never comes back empty. -/
theorem find_building_create_nonempty (org : Org) (n : Option String) :
    (find_building org n true).1.isSome = true := by
  unfold find_building
  dsimp only
  cases h : alookup org.buildings (orUndefined n) <;> rfl

/-- `find_group` in create mode never comes back empty. -/
theorem find_group_create_nonempty (org : Org) (n : Option String) :
    (find_group org n true).1.isSome = true := by
  unfold find_group
  dsimp only
  cases h : alookup org.groups (orUndefined n) <;> rfl

/-- `find_department` in create mode never comes back empty. -/
theorem find_department_create_nonempty (org : Org) (n : Option String) :
    (find_department org n true).1.isSome = true := by
  unfold find_department
  dsimp only
  cases h : alookup org.departments (orUndefined n) <;> rfl

/-- `find_room` in create mode never comes back empty. -/
theorem find_room_create_nonempty (org : Org) (bn rn : Option String) :
    (find_room org bn rn true).1.isSome = true := by
  have hb := find_building_create_nonempty org (some (orUndefined bn))
  unfold find_room
  dsimp only
  cases hres : (find_building org (some (orUndefined bn)) true).1 with
  | none => rw [hres] at hb; cases hb
  | some b =>
    dsimp only
    cases hr : alookup b.rooms (orUndefined rn) <;> rfl

/-- `find_user` in create mode never comes back empty. -/
theorem find_user_create_nonempty (org : Org) (e nm ph : Option String) :
    (find_user org e nm ph true).1 ≠ [] := by
  rw [find_user_eq org e nm ph true (by simp)]
  cases hL : (if strTruthy e then email_lookup org.users (e.getD "") nm ph
      else if strTruthy nm || strTruthy ph then name_phone_lookup org.users nm ph
      else []) with
  | nil => exact fun hc => List.cons_ne_nil _ _ hc
  | cons u us => exact fun hc => List.cons_ne_nil _ _ hc

/-- C7 amended: find-or-create convergence for the building, group,
department and room registries at every key, and for the user registry
at every key with at least one identity component (registry keys being
unique, as Python dict keys are); in each registry a create-mode lookup
never returns an empty result.  (Only the all-absent user key violates
the original claim — see the counterexample.) -/
theorem c7_find_or_create_convergence :
    (∀ (org : Org) (name : Option String),
      alookup org.buildings (orUndefined name) = none →
      ∃ b org1, find_building org name true = (some b, org1) ∧
        org1.buildings = org.buildings ++ [(orUndefined name, b)] ∧
        ∀ cm, find_building org1 name cm = (some b, org1)) ∧
    (∀ (org : Org) (name : Option String),
      alookup org.groups (orUndefined name) = none →
      ∃ g org1, find_group org name true = (some g, org1) ∧
        org1.groups = org.groups ++ [(orUndefined name, g)] ∧
        ∀ cm, find_group org1 name cm = (some g, org1)) ∧
    (∀ (org : Org) (name : Option String),
      alookup org.departments (orUndefined name) = none →
      ∃ d org1, find_department org name true = (some d, org1) ∧
        org1.departments = org.departments ++ [(orUndefined name, d)] ∧
        ∀ cm, find_department org1 name cm = (some d, org1)) ∧
    (∀ (org : Org) (bn rn : Option String),
      (org.buildings.map Prod.fst).Nodup →
      find_room org bn rn false = (none, org) →
      ∃ r org1, find_room org bn rn true = (some r, org1) ∧
        (∀ cm, find_room org1 bn rn cm = (some r, org1)) ∧
        roomCount org1 = roomCount org + 1) ∧
    (∀ (org : Org) (email name phone : Option String),
      (strTruthy email || strTruthy name || strTruthy phone) = true →
      (org.users.map Prod.fst).Nodup →
      find_user org email name phone false = ([], org) →
      ∃ u org1, find_user org email name phone true = ([u], org1) ∧
        (∀ cm, find_user org1 email name phone cm = ([u], org1)) ∧
        userCount org1 = userCount org + 1) ∧
    ((∀ (org : Org) (n : Option String), (find_building org n true).1.isSome = true) ∧
     (∀ (org : Org) (n : Option String), (find_group org n true).1.isSome = true) ∧
     (∀ (org : Org) (n : Option String), (find_department org n true).1.isSome = true) ∧
     (∀ (org : Org) (bn rn : Option String), (find_room org bn rn true).1.isSome = true) ∧
     (∀ (org : Org) (e nm ph : Option String), (find_user org e nm ph true).1 ≠ [])) :=
  ⟨find_building_create_spec, find_group_create_spec, find_department_create_spec,
   find_room_create_spec, find_user_create_spec,
   find_building_create_nonempty, find_group_create_nonempty,
   find_department_create_nonempty, find_room_create_nonempty, find_user_create_nonempty⟩

/-- C7 witness: first-create and subsequent-lookup convergence at the
concrete keys `Hall`, `(Hall, 101)` and email `a@x`, starting from the
empty organization. -/
theorem c7_find_or_create_convergence_witness :
    (∃ b org1, find_building Org.init (some "Hall") true = (some b, org1) ∧
      org1.buildings = Org.init.buildings ++ [(orUndefined (some "Hall"), b)] ∧
      ∀ cm, find_building org1 (some "Hall") cm = (some b, org1)) ∧
    (∃ r org1, find_room Org.init (some "Hall") (some "101") true = (some r, org1) ∧
      (∀ cm, find_room org1 (some "Hall") (some "101") cm = (some r, org1)) ∧
      roomCount org1 = roomCount Org.init + 1) ∧
    (∃ u org1, find_user Org.init (some "a@x") none none true = ([u], org1) ∧
      (∀ cm, find_user org1 (some "a@x") none none cm = ([u], org1)) ∧
      userCount org1 = userCount Org.init + 1) :=
  ⟨c7_find_or_create_convergence.1 Org.init (some "Hall") rfl,
   c7_find_or_create_convergence.2.2.2.1 Org.init (some "Hall") (some "101")
     (by decide) rfl,
   c7_find_or_create_convergence.2.2.2.2.1 Org.init (some "a@x") none none
     (by decide) (by decide) rfl⟩

/-! ## C4: per_week bucket completeness -/

/-- A weekday is nonnegative. -/
theorem weekday_nonneg (d : Int) : 0 ≤ weekday d := by
  unfold weekday; omega

/-- A weekday is below 7. -/
theorem weekday_lt (d : Int) : weekday d < 7 := by
  unfold weekday; omega

/-- Stepping one day back decrements the weekday while it is positive. -/
theorem weekday_sub_one (d : Int) (h : 1 ≤ weekday d) :
    weekday (d - 1) = weekday d - 1 := by
  unfold weekday at h ⊢; omega

/-- With enough fuel, the Monday walk lands exactly `weekday d` days back. -/
theorem mondayLoop_eq (fuel : Nat) (d : Int) (h : (weekday d).toNat < fuel) :
    mondayLoop fuel d = d - weekday d := by
  induction fuel generalizing d with
  | zero => omega
  | succ n ih =>
    unfold mondayLoop
    by_cases h0 : weekday d = 0
    · rw [if_pos h0, h0]; omega
    · rw [if_neg h0]
      have hnn := weekday_nonneg d
      have h1 : weekday (d - 1) = weekday d - 1 := weekday_sub_one d (by omega)
      rw [ih (d - 1) (by rw [h1]; omega), h1]
      omega

/-- `get_monday` explicitly: back up by the weekday, zero the time. -/
theorem get_monday_eq (t : DT) : get_monday t = ⟨t.day - weekday t.day, 0⟩ := by
  unfold get_monday
  rw [mondayLoop_eq 7 t.day
    (by have := weekday_lt t.day; have := weekday_nonneg t.day; omega)]

/-- `get_monday` lands on a Monday. -/
theorem weekday_get_monday (t : DT) : weekday (get_monday t).day = 0 := by
  rw [get_monday_eq]
  unfold weekday
  dsimp only
  omega

/-- When `first_week` resolves, it is a Monday at midnight. -/
theorem firstWeek_spec (org : Org) (args : Args) (fw : DT)
    (h : firstWeek org args = .ok fw) : fw.sec = 0 ∧ weekday fw.day = 0 := by
  unfold firstWeek at h
  split at h
  · exact Except.noConfusion h
  · cases h
    exact ⟨rfl, weekday_get_monday _⟩
  · exact Except.noConfusion h

/-- The number of week buckets the `while week_i <= last_week` loop
produces: one per started 7-day stride from `fw` up to `lw`, none when
the range is empty. -/
def numWeeks (lw fw : DT) : Nat :=
  if dtLe fw lw then (lw.day - fw.day).toNat / 7 + 1 else 0

/-- Mapping over `List.range (n+1)` splits off index 0. -/
theorem range_succ_map {β : Type} (g : Nat → β) (n : Nat) :
    (List.range (n + 1)).map g = g 0 :: (List.range n).map (fun i => g (i + 1)) := by
  rw [List.range_succ_eq_map, List.map_cons, List.map_map]
  rfl

/-- The week-key loop produces exactly the arithmetic progression
`fw, fw+7d, …` of length `numWeeks lw fw` (time-of-day fixed). -/
theorem weekKeys_of_numWeeks (n : Nat) : ∀ (lw fw : DT), fw.sec ≤ lw.sec →
    numWeeks lw fw = n →
    weekKeysAux lw fw =
      (List.range n).map (fun i : Nat => addDays (7 * (i : Int)) fw) := by
  induction n with
  | zero =>
    intro lw fw hsec hN
    by_cases h : dtLe fw lw = true
    · unfold numWeeks at hN
      rw [if_pos h] at hN
      omega
    · rw [weekKeysAux, dif_neg h]
      rfl
  | succ n ih =>
    intro lw fw hsec hN
    have h : dtLe fw lw = true := by
      by_cases h : dtLe fw lw = true
      · exact h
      · unfold numWeeks at hN
        rw [if_neg h] at hN
        omega
    have hday : fw.day ≤ lw.day := by
      rw [dtLe_iff] at h
      omega
    unfold numWeeks at hN
    rw [if_pos h] at hN
    have hN2 : numWeeks lw (addDays 7 fw) = n := by
      unfold numWeeks
      by_cases hc2 : dtLe (addDays 7 fw) lw = true
      · rw [if_pos hc2]
        rw [dtLe_iff] at hc2
        dsimp only [addDays] at hc2 ⊢
        omega
      · rw [if_neg hc2]
        rw [dtLe_iff] at hc2
        dsimp only [addDays] at hc2
        omega
    rw [weekKeysAux, dif_pos h, ih lw (addDays 7 fw) hsec hN2, range_succ_map]
    have h0 : addDays (7 * ((0 : Nat) : Int)) fw = fw := by
      simp [addDays]
    rw [h0]
    refine congrArg (List.cons fw) (List.map_congr_left ?_)
    intro i _
    simp only [addDays, DT.mk.injEq]
    constructor
    · push_cast
      ring
    · trivial

/-- Incrementing the value at a key leaves the key list unchanged. -/
theorem map_fst_bump (k : DT) : ∀ m : List (DT × Nat),
    (m.map fun p => if p.1 = k then (p.1, p.2 + 1) else p).map Prod.fst =
      m.map Prod.fst := by
  intro m
  induction m with
  | nil => rfl
  | cons p rest ih =>
    simp only [List.map_cons, ih, List.cons.injEq]
    refine ⟨?_, trivial⟩
    split <;> rfl

/-- A successful `week_counts[k] += 1` preserves the bucket keys. -/
theorem bump_keys (m m1 : List (DT × Nat)) (k : DT) (h : bump m k = .ok m1) :
    m1.map Prod.fst = m.map Prod.fst := by
  unfold bump at h
  cases halu : alookup m k with
  | none => rw [halu] at h; exact Except.noConfusion h
  | some v =>
    rw [halu] at h
    cases h
    exact map_fst_bump k m

/-- The ticket-sorting loop of `per_week` preserves the bucket keys. -/
theorem perWeekCount_keys (fw lw : DT) : ∀ (ts : List Ticket) (m m1 : List (DT × Nat)),
    perWeekCount fw lw ts m = .ok m1 → m1.map Prod.fst = m.map Prod.fst := by
  intro ts
  induction ts with
  | nil =>
    intro m m1 h
    cases h
    rfl
  | cons t rest ih =>
    intro m m1 h
    rw [perWeekCount] at h
    split at h
    · exact Except.noConfusion h
    · dsimp only at h
      split at h
      · split at h
        · exact Except.noConfusion h
        · next m2 hbump =>
          exact (ih m2 m1 h).trans (bump_keys m m2 _ hbump)
      · exact ih m m1 h

/-- Pre-populating the buckets with zeros keys them by the week list. -/
theorem map_fst_zip_zero (l : List DT) :
    (l.map fun k => (k, (0 : Nat))).map Prod.fst = l := by
  induction l with
  | nil => rfl
  | cons x xs ih => simp only [List.map_cons, ih]

/-- C4: whenever `per_week` returns a mapping, its keys are exactly the
arithmetic progression of Mondays at midnight from `first_week` with
7-day spacing and `numWeeks` entries; every key lies in
`[first_week, last_week]`, every Monday-midnight in that range is a key
(no gaps, no omitted zero-count buckets), the mapping has exactly
`numWeeks` entries, and every count is nonnegative. -/
theorem c4_per_week_bucket_completeness (org : Org) (args : Args)
    (m : List (DT × Nat)) (args1 : Args)
    (h : per_week org args = .ok (m, args1)) :
    ∃ fw, firstWeek org args = .ok fw ∧ fw.sec = 0 ∧ weekday fw.day = 0 ∧
      m.map Prod.fst = (List.range (numWeeks (lastWeek args fw) fw)).map
        (fun i : Nat => addDays (7 * (i : Int)) fw) ∧
      m.length = numWeeks (lastWeek args fw) fw ∧
      (∀ k ∈ m.map Prod.fst, k.sec = 0 ∧ weekday k.day = 0 ∧
        dtLe fw k = true ∧ dtLe k (lastWeek args fw) = true) ∧
      (∀ w : DT, w.sec = 0 → weekday w.day = 0 → dtLe fw w = true →
        dtLe w (lastWeek args fw) = true → w ∈ m.map Prod.fst) ∧
      ∀ p ∈ m, 0 ≤ p.2 := by
  unfold per_week at h
  split at h
  · exact Except.noConfusion h
  · next fw hfw =>
    dsimp only at h
    split at h
    · exact Except.noConfusion h
    · next fr hft =>
      split at h
      · exact Except.noConfusion h
      · next counts hpc =>
        injection h with h2
        injection h2 with hm ha
        subst hm
        obtain ⟨hsec0, hwd0⟩ := firstWeek_spec org args fw hfw
        have hk1 := perWeekCount_keys fw (lastWeek args fw) fr.1 _ counts hpc
        rw [map_fst_zip_zero] at hk1
        have hrange := weekKeys_of_numWeeks (numWeeks (lastWeek args fw) fw)
          (lastWeek args fw) fw (by rw [hsec0]; exact Nat.zero_le _) rfl
        have hA : counts.map Prod.fst =
            (List.range (numWeeks (lastWeek args fw) fw)).map
              (fun i : Nat => addDays (7 * (i : Int)) fw) := hk1.trans hrange
        refine ⟨fw, hfw, hsec0, hwd0, hA, ?_, ?_, ?_, ?_⟩
        · rw [show counts.length = (counts.map Prod.fst).length from
            (List.length_map counts Prod.fst).symm, hA, List.length_map,
            List.length_range]
        · intro k hk
          rw [hA] at hk
          simp only [List.mem_map, List.mem_range] at hk
          obtain ⟨i, hi, rfl⟩ := hk
          refine ⟨hsec0, ?_, ?_, ?_⟩
          · dsimp only [addDays]
            unfold weekday
            unfold weekday at hwd0
            omega
          · rw [dtLe_iff]
            dsimp only [addDays]
            omega
          · rw [dtLe_iff]
            dsimp only [addDays]
            by_cases hfl : dtLe fw (lastWeek args fw) = true
            · unfold numWeeks at hi
              rw [if_pos hfl] at hi
              rw [dtLe_iff] at hfl
              omega
            · unfold numWeeks at hi
              rw [if_neg hfl] at hi
              omega
        · intro w hws hwd hfw2 hwl
          rw [hA]
          simp only [List.mem_map, List.mem_range]
          rw [dtLe_iff] at hfw2 hwl
          unfold weekday at hwd hwd0
          have hfl : dtLe fw (lastWeek args fw) = true := by
            rw [dtLe_iff]
            omega
          refine ⟨(w.day - fw.day).toNat / 7, ?_, ?_⟩
          · unfold numWeeks
            rw [if_pos hfl]
            omega
          · have h1 : fw.day + 7 * (((w.day - fw.day).toNat / 7 : Nat) : Int)
                = w.day := by omega
            have h2 : fw.sec = w.sec := by omega
            dsimp only [addDays]
            rw [h1, h2]
        · intro p _
          exact Nat.zero_le _

/-- A ticket created on Tuesday of the first term week (day 5, 01:00). -/
def ticketC4 : Ticket :=
  ⟨1, none, ⟨0, 0⟩, 0, 0, 0, some ⟨5, 3600⟩, none, [], none⟩

/-- Criteria bundle with `termstart` on the Monday of day 4 and a
two-week term. -/
def argsC4 : Args :=
  { Args.empty with termstart := some ⟨4, 0⟩, weeks := some 2 }

/-- Organization holding just `ticketC4`. -/
def orgC4 : Org :=
  { Org.init with tickets := [(1, ticketC4)] }

/-- Expected `per_week` output for `orgC4` and `argsC4`: the two Monday
buckets, the first holding the one ticket. -/
def mC4 : List (DT × Nat) :=
  [(⟨4, 0⟩, 1), (⟨11, 0⟩, 0)]

theorem c4_per_week_bucket_completeness_witness :
    per_week orgC4 argsC4 = .ok (mC4, argsC4) ∧
    (∃ fw, firstWeek orgC4 argsC4 = .ok fw ∧ fw.sec = 0 ∧ weekday fw.day = 0 ∧
      mC4.map Prod.fst = (List.range (numWeeks (lastWeek argsC4 fw) fw)).map
        (fun i : Nat => addDays (7 * (i : Int)) fw) ∧
      mC4.length = numWeeks (lastWeek argsC4 fw) fw ∧
      (∀ k ∈ mC4.map Prod.fst, k.sec = 0 ∧ weekday k.day = 0 ∧
        dtLe fw k = true ∧ dtLe k (lastWeek argsC4 fw) = true) ∧
      (∀ w : DT, w.sec = 0 → weekday w.day = 0 → dtLe fw w = true →
        dtLe w (lastWeek argsC4 fw) = true → w ∈ mC4.map Prod.fst) ∧
      ∀ p ∈ mC4, 0 ≤ p.2) := by
  have hwk : weekKeysAux (lastWeek argsC4 ⟨4, 0⟩) ⟨4, 0⟩ = [⟨4, 0⟩, ⟨11, 0⟩] := by
    rw [weekKeys_of_numWeeks 2 (lastWeek argsC4 ⟨4, 0⟩) ⟨4, 0⟩ (by decide) (by decide)]
    rfl
  have hper : per_week orgC4 argsC4 = .ok (mC4, argsC4) := by
    unfold per_week
    rw [show firstWeek orgC4 argsC4 = Except.ok ⟨4, 0⟩ from rfl]
    dsimp only
    rw [hwk]
    rfl
  exact ⟨hper, c4_per_week_bucket_completeness orgC4 argsC4 mC4 argsC4 hper⟩

end Tstat
